import Mathlib

/-! Verification development for the universal_gamepad input pipeline.

The C++ sources are shallowly embedded: IEEE doubles are modelled as
rationals, machine integers as Int with the bounds the C type imposes
stated as hypotheses where they matter.  The NaN sentinel used for the
throttle caches is modelled as an Option that is none while unset, since
the only NaN test in the pipeline is the sentinel check in OnInput.
-/

/-! W3C Standard Gamepad constants, from linux/button_mapping.h and
windows/button_mapping.h (namespace W3CButton / W3CAxis). -/

def kButtonA : Int := 0
def kButtonB : Int := 1
def kButtonX : Int := 2
def kButtonY : Int := 3
def kLeftShoulder : Int := 4
def kRightShoulder : Int := 5
def kLeftTrigger : Int := 6
def kRightTrigger : Int := 7
def kBack : Int := 8
def kStart : Int := 9
def kLeftStickButton : Int := 10
def kRightStickButton : Int := 11
def kDpadUp : Int := 12
def kDpadDown : Int := 13
def kDpadLeft : Int := 14
def kDpadRight : Int := 15
def kGuide : Int := 16

def kLeftStickX : Int := 0
def kLeftStickY : Int := 1
def kRightStickX : Int := 2
def kRightStickY : Int := 3

/-- Linux input event-code constants from the kernel uapi header
linux/input-event-codes.h, used by evdev_manager.cc. -/
def ABS_Z : Int := 2

def ABS_HAT0X : Int := 16

def ABS_HAT0Y : Int := 17

/-- The throttle threshold kAxisEpsilon = 0.005 from evdev_manager.h and
windows/sdl_manager.h. -/
def kAxisEpsilon : ℚ := 5 / 1000

/-- The XInput backend threshold kAxisEpsilon = 0.001 from
windows/xinput_manager.cpp. -/
def kXInputAxisEpsilon : ℚ := 1 / 1000

/-! Analog normalizers, translated from linux/button_mapping.cc and
windows/button_mapping.cpp. -/

/-- NormalizeStickAxis from linux/button_mapping.cc: clamp -32768 to
-32767 so the range is symmetric, then divide by 32767.  The C input type
is int16_t. -/
def NormalizeStickAxis (value : Int) : ℚ :=
  let v : Int := if value < -32767 then -32767 else value
  (v : ℚ) / 32767

/-- NormalizeTriggerAxis from linux/button_mapping.cc: clamp negative
values to 0, then divide by 32767.  The C input type is int16_t. -/
def NormalizeTriggerAxis (value : Int) : ℚ :=
  let v : Int := if value < 0 then 0 else value
  (v : ℚ) / 32767

/-- NormalizeThumbstick from windows/button_mapping.cpp: dead-zone then
rescale of the remaining span, result clamped to the interval from -1
to 1 by std::clamp. -/
def NormalizeThumbstick (value dead_zone : Int) : ℚ :=
  let v : ℚ := value
  let dz : ℚ := dead_zone
  if |v| ≤ dz then 0
  else
    let max_val : ℚ := if v > 0 then 32767 else 32768
    let sign : ℚ := if v > 0 then 1 else -1
    let abs_v : ℚ := |v|
    let normalized : ℚ := sign * ((abs_v - dz) / (max_val - dz))
    min (max normalized (-1)) 1

/-- NormalizeTrigger from windows/button_mapping.cpp: values at or below
the threshold normalize to 0, above it the remaining span is scaled to
reach 1 at 255, clamped to the interval from 0 to 1. -/
def NormalizeTrigger (value threshold : Int) : ℚ :=
  if value ≤ threshold then 0
  else
    let v : ℚ := value
    let t : ℚ := threshold
    let normalized : ℚ := (v - t) / (255 - t)
    min (max normalized 0) 1

/-- The inline stick-axis normalization of EvdevManager.OnInput
(evdev_manager.cc lines 551-555): value = 2*(raw-min)/range - 1 when the
calibration range is nonzero, else 0.  There is no clamp. -/
def evdevStickNormalize (minimum maximum raw : Int) : ℚ :=
  let range : ℚ := ((maximum - minimum : Int) : ℚ)
  if range ≠ 0 then 2 * ((raw - minimum : Int) : ℚ) / range - 1 else 0

/-- The inline trigger normalization of EvdevManager.OnInput
(evdev_manager.cc lines 520-524): value = (raw-min)/range when the
calibration range is nonzero, else 0.  There is no clamp. -/
def evdevTriggerNormalize (minimum maximum raw : Int) : ℚ :=
  let range : ℚ := ((maximum - minimum : Int) : ℚ)
  if range ≠ 0 then ((raw - minimum : Int) : ℚ) / range else 0

/-! Wire values.  The Linux backends build events as FlValue lists or maps
from the GLib flutter embedding; the value model below captures the
constructors the sources use. -/

/-- Model of the GLib FlValue variants used by the sources. -/
inductive FlValue where
  | intV (i : Int)
  | strV (s : String)
  | boolV (b : Bool)
  | floatV (q : ℚ)
  | listV (xs : List FlValue)

/-- Whether an FlValue is a string value. -/
def FlValue.isString : FlValue → Bool
  | FlValue.strV _ => true
  | _ => false

/-- Element lookup in an FlValue list, as fl_value_get_list_value. -/
def FlValue.listGet : FlValue → Nat → Option FlValue
  | FlValue.listV xs, i => xs.get? i
  | _, _ => none

/-- The connection event the evdev backend builds in AddDevice,
RemoveDevice and EmitExistingDevices (evdev_manager.cc): a list
whose wire format is type tag 0, gamepadId, timestamp, connected,
name, vendorId, productId.  The gamepadId slot is built with
fl_value_new_int on the integer device id. -/
def evdevConnectionEventValue (id ts : Int) (connected : Bool)
    (name : String) (vendorId productId : Int) : FlValue :=
  FlValue.listV [FlValue.intV 0, FlValue.intV id, FlValue.intV ts,
    FlValue.boolV connected, FlValue.strV name, FlValue.intV vendorId,
    FlValue.intV productId]

/-- The per-gamepad map entry of EvdevManager.ListGamepads: the id field
is built with fl_value_new_int on the integer device id. -/
def evdevListGamepadsIdField (id : Int) : FlValue := FlValue.intV id

/-- MakeGamepadId from linux/sdl_manager.cc. -/
def sdlMakeGamepadId (id : Int) : String := "linux_" ++ toString id

/-- MakeGamepadId from windows/xinput_manager.cpp and
windows/sdl_manager.cpp. -/
def xinputMakeGamepadId (user_index : Int) : String :=
  "win_" ++ toString user_index

/-- The id string ManetteManager.AddDevice assigns from its
monotonically increasing counter (manette_manager.cc line 141). -/
def manetteMakeGamepadId (n : Int) : String := "linux_" ++ toString n

/-! Normalized events.  All backend producers construct events of exactly
three shapes; this inductive is the event-level view of the wire lists
the evdev worker pushes onto its queue. -/

/-- A produced event: connection, button, or axis. -/
inductive FlEvent where
  | connection (gamepadId : Int) (timestamp : Int) (connected : Bool)
      (name : String) (vendorId : Int) (productId : Int)
  | button (gamepadId : Int) (timestamp : Int) (buttonIndex : Int)
      (pressed : Bool) (value : ℚ)
  | axis (gamepadId : Int) (timestamp : Int) (axisIndex : Int) (value : ℚ)
  deriving DecidableEq, Repr

/-- Whether an event is an axis event (wire type tag 2). -/
def FlEvent.isAxis : FlEvent → Bool
  | FlEvent.axis _ _ _ _ => true
  | _ => false

/-- Whether an event is a connection event with the given connected
flag. -/
def FlEvent.isConnectionFlag (c : Bool) : FlEvent → Bool
  | FlEvent.connection _ _ c' _ _ _ => c' = c
  | _ => false

/-! The evdev input path: device state and OnInput processing
(evdev_manager.cc lines 435-586). -/

/-- Calibration data cached per axis code, as struct input_absinfo. -/
structure AbsInfo where
  minimum : Int
  maximum : Int
  deriving DecidableEq, Repr

/-- Per-device state of EvdevManager.DeviceInfo relevant to input
processing: integer id, cached calibration per code, metadata, and the
throttle caches last_axis and last_trigger.  The caches hold none while
still at the unset NaN sentinel written by AddDevice. -/
structure DeviceState where
  id : Int
  name : String
  vendorId : Int
  productId : Int
  absInfo : Int → AbsInfo
  lastAxis : Int → Option ℚ
  lastTrigger : Int → Option ℚ

/-- Modelled from the spec: the evdev mapping-table functions
EvdevButtonToW3C, EvdevAxisToW3C, IsHatAxis, IsTriggerAxis and
TriggerAxisToButtonIndex declared in the ButtonMapping namespace are
called by evdev_manager.cc and manette_manager.cc but their definitions
are not among the provided sources.  They are modelled as an abstract
mapping record; spec section 4.1 gives their contract. -/
structure EvdevMapping where
  buttonToW3C : Int → Int
  axisToW3C : Int → Int
  isHatAxis : Int → Bool
  isTriggerAxisCode : Int → Bool
  triggerAxisToButtonIndex : Int → Int

/-- Modelled from the spec (section 4.1): MapButton returns a standard
button index in 0..16 or -1, MapAxis returns a standard axis index in
0..3 or -1, TriggerToButtonIndex returns the analog-button index 6 or 7
or -1, and hat axes are distinct from trigger axes. -/
def EvdevMapping.SpecConformant (m : EvdevMapping) : Prop :=
  (∀ c, m.buttonToW3C c = -1 ∨ (0 ≤ m.buttonToW3C c ∧ m.buttonToW3C c ≤ 16)) ∧
  (∀ c, m.axisToW3C c = -1 ∨ (0 ≤ m.axisToW3C c ∧ m.axisToW3C c ≤ 3)) ∧
  (∀ c, m.triggerAxisToButtonIndex c = -1 ∨
    m.triggerAxisToButtonIndex c = kLeftTrigger ∨
    m.triggerAxisToButtonIndex c = kRightTrigger)

/-- Modelled from the spec: a concrete mapping instance satisfying the
section 4.1 contract, used only to instantiate witnesses.  Button codes
BTN_SOUTH..BTN_THUMBR from the kernel header are mapped onto the
standard layout; ABS_X/ABS_Y/ABS_RX/ABS_RY are the stick axes,
ABS_Z/ABS_RZ the triggers, ABS_HAT0X/ABS_HAT0Y the hat. -/
def specEvdevMapping : EvdevMapping where
  buttonToW3C c :=
    if c = 304 then kButtonA else if c = 305 then kButtonB
    else if c = 307 then kButtonX else if c = 308 then kButtonY
    else if c = 310 then kLeftShoulder else if c = 311 then kRightShoulder
    else if c = 314 then kBack else if c = 315 then kStart
    else if c = 316 then kGuide else if c = 317 then kLeftStickButton
    else if c = 318 then kRightStickButton else -1
  axisToW3C c :=
    if c = 0 then kLeftStickX else if c = 1 then kLeftStickY
    else if c = 3 then kRightStickX else if c = 4 then kRightStickY
    else -1
  isHatAxis c := c = ABS_HAT0X ∨ c = ABS_HAT0Y
  isTriggerAxisCode c := c = ABS_Z ∨ c = 5
  triggerAxisToButtonIndex c :=
    if c = ABS_Z then kLeftTrigger else if c = 5 then kRightTrigger else -1

/-- A raw kernel input event as read by libevdev_next_event: EV_KEY or
EV_ABS events carry a code and a value; every other type falls through
the OnInput dispatch unprocessed. -/
inductive RawEvent where
  | key (code : Int) (value : Int)
  | abs (code : Int) (value : Int)
  | other
  deriving DecidableEq, Repr

/-- The throttle test of OnInput: suppress when the cache is set (not
the NaN sentinel) and the new value differs from it by less than
kAxisEpsilon. -/
def throttleSuppress (last : Option ℚ) (value : ℚ) : Bool :=
  match last with
  | some l => |value - l| < kAxisEpsilon
  | none => false

/-- One iteration of the EvdevManager.OnInput read loop
(evdev_manager.cc lines 441-576), translated branch by branch: EV_KEY
events map through EvdevButtonToW3C and are dropped when unmapped;
EV_ABS hat codes expand to two dpad button events; trigger codes
normalize against the cached calibration, pass the throttle, and emit an
analog button event with pressed = value greater than 0.5; remaining
codes map through EvdevAxisToW3C, normalize, pass the throttle, and emit
an axis event.  Returns the forwarded events and the updated device
state. -/
def processRawEvent (m : EvdevMapping) (ts : Int) (st : DeviceState) :
    RawEvent → List FlEvent × DeviceState
  | RawEvent.key code value =>
    let w3c := m.buttonToW3C code
    if w3c < 0 then ([], st)
    else
      let pressed : Bool := value ≠ 0
      ([FlEvent.button st.id ts w3c pressed (if pressed then 1 else 0)], st)
  | RawEvent.abs code value =>
    if m.isHatAxis code then
      if code = ABS_HAT0X then
        ([FlEvent.button st.id ts kDpadLeft (value < 0)
            (if value < 0 then 1 else 0),
          FlEvent.button st.id ts kDpadRight (value > 0)
            (if value > 0 then 1 else 0)], st)
      else if code = ABS_HAT0Y then
        ([FlEvent.button st.id ts kDpadUp (value < 0)
            (if value < 0 then 1 else 0),
          FlEvent.button st.id ts kDpadDown (value > 0)
            (if value > 0 then 1 else 0)], st)
      else ([], st)
    else if m.isTriggerAxisCode code then
      let button_index := m.triggerAxisToButtonIndex code
      if button_index < 0 then ([], st)
      else
        let ai := st.absInfo code
        let value' := evdevTriggerNormalize ai.minimum ai.maximum value
        let trigger_idx : Int := if code = ABS_Z then 0 else 1
        if throttleSuppress (st.lastTrigger trigger_idx) value' then ([], st)
        else
          let st' := { st with
            lastTrigger := Function.update st.lastTrigger trigger_idx
              (some value') }
          let pressed : Bool := value' > 1/2
          ([FlEvent.button st.id ts button_index pressed value'], st')
    else
      let w3c := m.axisToW3C code
      if w3c < 0 then ([], st)
      else
        let ai := st.absInfo code
        let value' := evdevStickNormalize ai.minimum ai.maximum value
        if w3c < 4 ∧ throttleSuppress (st.lastAxis w3c) value' then ([], st)
        else
          let st' := if w3c < 4 then
            { st with
              lastAxis := Function.update st.lastAxis w3c (some value') }
            else st
          ([FlEvent.axis st.id ts w3c value'], st')
  | RawEvent.other => ([], st)

/-- A result of one libevdev_next_event call: a successfully read event,
a SYN_DROPPED resync status, or no more data. -/
inductive ReadResult where
  | success (ev : RawEvent)
  | sync
  | again
  deriving DecidableEq, Repr

/-- The main OnInput read loop: process successfully read events until
the read status is no longer LIBEVDEV_READ_STATUS_SUCCESS; the remainder
of the stream is returned together with the forwarded events. -/
def processStream (m : EvdevMapping) (ts : Int) (st : DeviceState) :
    List ReadResult → List FlEvent × DeviceState × List ReadResult
  | [] => ([], st, [])
  | ReadResult.success ev :: rest =>
    let p := processRawEvent m ts st ev
    let q := processStream m ts p.2 rest
    (p.1 ++ q.1, q.2.1, q.2.2)
  | ReadResult.sync :: rest => ([], st, ReadResult.sync :: rest)
  | ReadResult.again :: rest => ([], st, ReadResult.again :: rest)

/-- The SYN_DROPPED recovery loop of OnInput (evdev_manager.cc lines
580-585): keep reading with LIBEVDEV_READ_FLAG_SYNC while the status
stays LIBEVDEV_READ_STATUS_SYNC, emitting nothing. -/
def drainSyncStream : List ReadResult → List ReadResult
  | [] => []
  | ReadResult.sync :: rest => drainSyncStream rest
  | ReadResult.success ev :: rest => ReadResult.success ev :: rest
  | ReadResult.again :: rest => ReadResult.again :: rest

/-- The whole of EvdevManager.OnInput over a read stream: the normal
loop, then, when it stopped on a SYN_DROPPED status, the silent resync
drain.  Returns the forwarded events, the final device state, and the
unconsumed remainder of the stream. -/
def onInput (m : EvdevMapping) (ts : Int) (st : DeviceState)
    (stream : List ReadResult) :
    List FlEvent × DeviceState × List ReadResult :=
  let p := processStream m ts st stream
  match p.2.2 with
  | ReadResult.sync :: rest => (p.1, p.2.1, drainSyncStream rest)
  | rem => (p.1, p.2.1, rem)

/-! The drain-and-coalesce step (EvdevManager.DrainEvents,
evdev_manager.cc lines 188-229). -/

/-- The uint64 cast of a C++ int64, as static_cast to uint64_t. -/
def toUInt64Nat (x : Int) : Nat := (x % (2 ^ 64 : Int)).toNat

/-- The coalescing key of DrainEvents (evdev_manager.cc line 208):
gamepadId shifted left by 8 bits, or-ed with the axis index, in uint64
arithmetic. -/
def coalesceKey (gid axisIndex : Int) : Nat :=
  ((toUInt64Nat gid) <<< 8 ||| toUInt64Nat axisIndex) % 2 ^ 64

/-- The coalescing key of an event when the event is an axis event (wire
tag 2 with at least five fields), none otherwise. -/
def axisKey : FlEvent → Option Nat
  | FlEvent.axis gid _ axisIndex _ => some (coalesceKey gid axisIndex)
  | _ => none

/-- The reverse scan of DrainEvents over the batch: the newest
occurrence of each axis key is kept and recorded in the seen set, older
occurrences with an already-seen key are nulled out; button and
connection events pass through.  The input and output lists are in
newest-first order. -/
def coalesceRev : List FlEvent → List Nat → List FlEvent
  | [], _ => []
  | e :: rest, seen =>
    match axisKey e with
    | some k =>
      if k ∈ seen then coalesceRev rest seen
      else e :: coalesceRev rest (k :: seen)
    | none => e :: coalesceRev rest seen

/-- The coalescing pass of DrainEvents on a drained batch: scan in
reverse so the first occurrence seen is the newest, then deliver the
surviving events in arrival order. -/
def drainCoalesce (events : List FlEvent) : List FlEvent :=
  (coalesceRev events.reverse []).reverse

/-! The evdev registry and lifecycle (evdev_manager.cc AddDevice,
RemoveDevice, Stop, ListGamepads, EmitExistingDevices, DrainEvents). -/

/-- The outcome of opening and probing a device path: none when the open
fails or IsGamepad rejects the node, otherwise the metadata and
calibration read from the device. -/
structure ProbeData where
  name : String
  vendorId : Int
  productId : Int
  absInfo : Int → AbsInfo

/-- The manager state of EvdevManager: the path-keyed device registry,
the monotonically increasing id counter, the queued events, and whether
a consumer callback is attached. -/
structure ManagerState where
  devices : List (String × DeviceState)
  nextId : Int
  pending : List FlEvent
  callbackAttached : Bool

/-- EvdevManager.AddDevice (evdev_manager.cc lines 271-397): a no-op
when the path is already tracked or when open or probe fails; otherwise
registers the device under the next id, sets the throttle caches to the
unset sentinel, increments the counter, and forwards one connection
event with connected true. -/
def AddDevice (s : ManagerState) (ts : Int) (path : String)
    (probe : Option ProbeData) : ManagerState :=
  if (s.devices.lookup path).isSome then s
  else
    match probe with
    | none => s
    | some pr =>
      let info : DeviceState :=
        { id := s.nextId, name := pr.name, vendorId := pr.vendorId,
          productId := pr.productId, absInfo := pr.absInfo,
          lastAxis := fun _ => none, lastTrigger := fun _ => none }
      { s with
        devices := s.devices ++ [(path, info)],
        nextId := s.nextId + 1,
        pending := s.pending ++
          [FlEvent.connection info.id ts true pr.name pr.vendorId
            pr.productId] }

/-- EvdevManager.RemoveDevice (evdev_manager.cc lines 399-429): a no-op
when the path is unknown; otherwise erases the entry, releases its
native resources, and forwards one connection event with connected false
built from the removed metadata. -/
def RemoveDevice (s : ManagerState) (ts : Int) (path : String) :
    ManagerState :=
  match s.devices.lookup path with
  | none => s
  | some info =>
    { s with
      devices := s.devices.filter (fun p => p.1 ≠ path),
      pending := s.pending ++
        [FlEvent.connection info.id ts false info.name info.vendorId
          info.productId] }

/-- EvdevManager.Stop (evdev_manager.cc lines 67-124): joins the worker,
destroys every device entry and its native resources, clears the
registry, frees every queued event, and clears the callback, all before
returning. -/
def Stop (s : ManagerState) : ManagerState :=
  { devices := [], nextId := s.nextId, pending := [],
    callbackAttached := false }

/-- One entry of the ListGamepads snapshot: id, name, vendorId,
productId. -/
structure GamepadEntry where
  id : Int
  name : String
  vendorId : Int
  productId : Int
  deriving DecidableEq, Repr

/-- EvdevManager.ListGamepads (evdev_manager.cc lines 126-144): a
snapshot of the registry metadata. -/
def ListGamepads (s : ManagerState) : List GamepadEntry :=
  s.devices.map (fun p =>
    { id := p.2.id, name := p.2.name, vendorId := p.2.vendorId,
      productId := p.2.productId })

/-- EvdevManager.EmitExistingDevices (evdev_manager.cc lines 146-164):
when a callback is attached, replay one connection event with connected
true per registered device; with no callback nothing is delivered. -/
def EmitExistingDevices (s : ManagerState) (ts : Int) : List FlEvent :=
  if s.callbackAttached then
    s.devices.map (fun p =>
      FlEvent.connection p.2.id ts true p.2.name p.2.vendorId p.2.productId)
  else []

/-- EvdevManager.DrainEvents (evdev_manager.cc lines 188-229): swap out
the pending queue, coalesce axis events, and deliver the survivors to
the callback when one is attached.  Returns the delivered events and the
new state. -/
def DrainEventsStep (s : ManagerState) : List FlEvent × ManagerState :=
  if s.pending = [] then ([], s)
  else
    let events := drainCoalesce s.pending
    let delivered := if s.callbackAttached then events else []
    (delivered, { s with pending := [] })

/-- A hotplug notification for one device path: an arrival carrying the
probe outcome, or a removal. -/
inductive HotplugOp where
  | add (probe : Option ProbeData)
  | remove

/-- Apply one hotplug notification for a fixed path. -/
def applyOp (path : String) (ts : Int) (s : ManagerState) :
    HotplugOp → ManagerState
  | HotplugOp.add probe => AddDevice s ts path probe
  | HotplugOp.remove => RemoveDevice s ts path

/-- Run a sequence of hotplug notifications for a fixed path. -/
def runOps (path : String) (ts : Int) (s : ManagerState) :
    List HotplugOp → ManagerState
  | [] => s
  | op :: rest => runOps path ts (applyOp path ts s op) rest

/-! The SDL mapping tables (linux/button_mapping.cc, identical to
windows/button_mapping.h declarations).  SDL_GamepadButton and
SDL_GamepadAxis enumerator values are from the SDL3 header. -/

def SDL_GAMEPAD_BUTTON_SOUTH : Int := 0
def SDL_GAMEPAD_BUTTON_EAST : Int := 1
def SDL_GAMEPAD_BUTTON_WEST : Int := 2
def SDL_GAMEPAD_BUTTON_NORTH : Int := 3
def SDL_GAMEPAD_BUTTON_BACK : Int := 4
def SDL_GAMEPAD_BUTTON_GUIDE : Int := 5
def SDL_GAMEPAD_BUTTON_START : Int := 6
def SDL_GAMEPAD_BUTTON_LEFT_STICK : Int := 7
def SDL_GAMEPAD_BUTTON_RIGHT_STICK : Int := 8
def SDL_GAMEPAD_BUTTON_LEFT_SHOULDER : Int := 9
def SDL_GAMEPAD_BUTTON_RIGHT_SHOULDER : Int := 10
def SDL_GAMEPAD_BUTTON_DPAD_UP : Int := 11
def SDL_GAMEPAD_BUTTON_DPAD_DOWN : Int := 12
def SDL_GAMEPAD_BUTTON_DPAD_LEFT : Int := 13
def SDL_GAMEPAD_BUTTON_DPAD_RIGHT : Int := 14

def SDL_GAMEPAD_AXIS_LEFTX : Int := 0
def SDL_GAMEPAD_AXIS_LEFTY : Int := 1
def SDL_GAMEPAD_AXIS_RIGHTX : Int := 2
def SDL_GAMEPAD_AXIS_RIGHTY : Int := 3
def SDL_GAMEPAD_AXIS_LEFT_TRIGGER : Int := 4
def SDL_GAMEPAD_AXIS_RIGHT_TRIGGER : Int := 5

/-- SdlButtonToW3C from linux/button_mapping.cc: switch over the SDL
button enum, default -1. -/
def SdlButtonToW3C (button : Int) : Int :=
  if button = SDL_GAMEPAD_BUTTON_SOUTH then kButtonA
  else if button = SDL_GAMEPAD_BUTTON_EAST then kButtonB
  else if button = SDL_GAMEPAD_BUTTON_WEST then kButtonX
  else if button = SDL_GAMEPAD_BUTTON_NORTH then kButtonY
  else if button = SDL_GAMEPAD_BUTTON_LEFT_SHOULDER then kLeftShoulder
  else if button = SDL_GAMEPAD_BUTTON_RIGHT_SHOULDER then kRightShoulder
  else if button = SDL_GAMEPAD_BUTTON_BACK then kBack
  else if button = SDL_GAMEPAD_BUTTON_START then kStart
  else if button = SDL_GAMEPAD_BUTTON_LEFT_STICK then kLeftStickButton
  else if button = SDL_GAMEPAD_BUTTON_RIGHT_STICK then kRightStickButton
  else if button = SDL_GAMEPAD_BUTTON_DPAD_UP then kDpadUp
  else if button = SDL_GAMEPAD_BUTTON_DPAD_DOWN then kDpadDown
  else if button = SDL_GAMEPAD_BUTTON_DPAD_LEFT then kDpadLeft
  else if button = SDL_GAMEPAD_BUTTON_DPAD_RIGHT then kDpadRight
  else if button = SDL_GAMEPAD_BUTTON_GUIDE then kGuide
  else -1

/-- SdlAxisToW3C from linux/button_mapping.cc: the four stick axes map
to standard axis indices, everything else, triggers included, is -1. -/
def SdlAxisToW3C (axis : Int) : Int :=
  if axis = SDL_GAMEPAD_AXIS_LEFTX then kLeftStickX
  else if axis = SDL_GAMEPAD_AXIS_LEFTY then kLeftStickY
  else if axis = SDL_GAMEPAD_AXIS_RIGHTX then kRightStickX
  else if axis = SDL_GAMEPAD_AXIS_RIGHTY then kRightStickY
  else -1

/-- IsTriggerAxis from linux/button_mapping.cc. -/
def IsTriggerAxis (axis : Int) : Bool :=
  axis = SDL_GAMEPAD_AXIS_LEFT_TRIGGER ∨ axis = SDL_GAMEPAD_AXIS_RIGHT_TRIGGER

/-- TriggerAxisToButtonIndex from linux/button_mapping.cc. -/
def TriggerAxisToButtonIndex (axis : Int) : Int :=
  if axis = SDL_GAMEPAD_AXIS_LEFT_TRIGGER then kLeftTrigger
  else if axis = SDL_GAMEPAD_AXIS_RIGHT_TRIGGER then kRightTrigger
  else -1

/-- A map-shaped wire event of the SDL and XInput backends: these
managers key events by the string MakeGamepadId rather than the raw
integer id. -/
inductive SdlEvent where
  | connection (gamepadId : String) (timestamp : Int) (connected : Bool)
      (name : String) (vendorId : Int) (productId : Int)
  | button (gamepadId : String) (timestamp : Int) (buttonIndex : Int)
      (pressed : Bool) (value : ℚ)
  | axis (gamepadId : String) (timestamp : Int) (axisIndex : Int) (value : ℚ)
  deriving DecidableEq, Repr

/-- SdlManager.HandleButtonEvent (linux/sdl_manager.cc lines 231-261)
for a tracked gamepad: unmapped buttons produce nothing, mapped ones one
button event. -/
def sdlHandleButtonEvent (joystick_id ts : Int) (button : Int)
    (pressed : Bool) : List SdlEvent :=
  let w3c_index := SdlButtonToW3C button
  if w3c_index < 0 then []
  else [SdlEvent.button (sdlMakeGamepadId joystick_id) ts w3c_index pressed
    (if pressed then 1 else 0)]

/-- SdlManager.HandleAxisEvent (linux/sdl_manager.cc lines 263-323) for
a tracked gamepad: trigger axes become analog button events with pressed
set when the normalized value exceeds 0.5; stick axes become axis
events; unmapped axes produce nothing. -/
def sdlHandleAxisEvent (joystick_id ts : Int) (axis : Int) (value : Int) :
    List SdlEvent :=
  if IsTriggerAxis axis then
    let button_index := TriggerAxisToButtonIndex axis
    if button_index < 0 then []
    else
      let normalized := NormalizeTriggerAxis value
      let pressed : Bool := normalized > 1/2
      [SdlEvent.button (sdlMakeGamepadId joystick_id) ts button_index
        pressed normalized]
  else
    let w3c_index := SdlAxisToW3C axis
    if w3c_index < 0 then []
    else [SdlEvent.axis (sdlMakeGamepadId joystick_id) ts w3c_index
      (NormalizeStickAxis value)]

/-- The per-trigger step of XInputManager.ProcessGamepad
(windows/xinput_manager.cpp lines 119-133): normalize against the rest
threshold, emit only when the change exceeds the XInput epsilon, with
pressed set whenever the normalized value is above zero.  Returns the
emitted event, if any, and the updated cached trigger value. -/
def xinputTriggerStep (user_index ts : Int) (buttonIndex : Int)
    (stateVal : ℚ) (raw threshold : Int) : List SdlEvent × ℚ :=
  let new_t := NormalizeTrigger raw threshold
  if |new_t - stateVal| > kXInputAxisEpsilon then
    ([SdlEvent.button (xinputMakeGamepadId user_index) ts buttonIndex
      (new_t > 0) new_t], new_t)
  else ([], stateVal)

/-- The connection-tracking head of XInputManager.ProcessGamepad
(windows/xinput_manager.cpp lines 74-91): emit a connection event on a
rising edge and a disconnection event on a falling edge, always under
the slot-derived MakeGamepadId.  Returns the emitted events and the new
connected flag for the slot. -/
def xinputConnectionStep (user_index ts : Int) (was now : Bool) :
    List SdlEvent × Bool :=
  if now ∧ ¬ was then
    ([SdlEvent.connection (xinputMakeGamepadId user_index) ts true
      "Xbox Controller" 0x045E 0x02E0], true)
  else if ¬ now ∧ was then
    ([SdlEvent.connection (xinputMakeGamepadId user_index) ts false
      "Xbox Controller" 0x045E 0x02E0], false)
  else ([], was)

/-- Iterated XInput polling of one slot over a sequence of observed
connection statuses. -/
def xinputConnectionRun (user_index ts : Int) :
    Bool → List Bool → List SdlEvent
  | _, [] => []
  | was, now :: rest =>
    let p := xinputConnectionStep user_index ts was now
    p.1 ++ xinputConnectionRun user_index ts p.2 rest

/-- The connected flags of the connection events in a queue, in
order. -/
def connectedFlags (l : List FlEvent) : List Bool :=
  l.filterMap (fun e => match e with
    | FlEvent.connection _ _ c _ _ _ => some c
    | _ => none)

/-- The alternating flag pattern true, false, true, ... of length k. -/
def altPattern (k : Nat) : List Bool :=
  (List.range k).map (fun i => decide (i % 2 = 0))

/-- The gamepadIds of the connection events with connected true in a
queue, in order. -/
def connectTrueIds (l : List FlEvent) : List Int :=
  l.filterMap (fun e => match e with
    | FlEvent.connection g _ true _ _ _ => some g
    | _ => none)

/-- Run a sequence of hotplug notifications, each naming its own device
path. -/
def runScript (ts : Int) (s : ManagerState) :
    List (String × HotplugOp) → ManagerState
  | [] => s
  | step :: rest => runScript ts (applyOp step.1 ts s step.2) rest

/-- The manager state at construction: empty registry, id counter at 0
as in evdev_manager.h, empty queue, callback attached by Start. -/
def initialManagerState : ManagerState :=
  { devices := [], nextId := 0, pending := [], callbackAttached := true }

/-- Whether an event is an axis event of the given device and axis
pair. -/
def isAxisOf (g a : Int) : FlEvent → Bool
  | FlEvent.axis g' _ a' _ => g' = g ∧ a' = a
  | _ => false

/-- Index validity for evdev-side events: button indices lie in 0..16,
axis indices in 0..3, and no index is ever -1. -/
def eventIndexOK : FlEvent → Prop
  | FlEvent.connection _ _ _ _ _ _ => True
  | FlEvent.button _ _ bi _ _ => 0 ≤ bi ∧ bi ≤ 16
  | FlEvent.axis _ _ ai _ => 0 ≤ ai ∧ ai ≤ 3

/-- Index validity for SDL-side events. -/
def sdlEventIndexOK : SdlEvent → Prop
  | SdlEvent.connection _ _ _ _ _ _ => True
  | SdlEvent.button _ _ bi _ _ => 0 ≤ bi ∧ bi ≤ 16
  | SdlEvent.axis _ _ ai _ => 0 ≤ ai ∧ ai ≤ 3

/-! Helper lemmas shared by several claims. -/

/-- Events all of SYN_DROPPED status drain to nothing. -/
lemma drainSyncStream_all_sync (syncs : List ReadResult)
    (h : ∀ r ∈ syncs, r = ReadResult.sync) : drainSyncStream syncs = [] := by
  induction syncs with
  | nil => rfl
  | cons r rest ih =>
    have hr := h r (List.mem_cons_self r rest)
    subst hr
    exact ih (fun r hr => h r (List.mem_cons_of_mem _ hr))

/-- The normal read loop stops at the first SYN_DROPPED status, leaving
the rest of the stream unconsumed. -/
lemma processStream_stops_at_sync (m : EvdevMapping) (ts : Int)
    (pre : List ReadResult) (st : DeviceState) (tail : List ReadResult)
    (h : ∀ r ∈ pre, ∃ e, r = ReadResult.success e) :
    processStream m ts st (pre ++ ReadResult.sync :: tail) =
      ((processStream m ts st pre).1, (processStream m ts st pre).2.1,
        ReadResult.sync :: tail) := by
  induction pre generalizing st with
  | nil => simp [processStream]
  | cons r rest ih =>
    obtain ⟨e, he⟩ := h r (List.mem_cons_self r rest)
    subst he
    simp only [List.cons_append, processStream]
    rw [show rest.append (ReadResult.sync :: tail) =
          rest ++ ReadResult.sync :: tail from rfl,
        ih _ (fun r hr => h r (List.mem_cons_of_mem _ hr))]

/-! Claim theorems. -/

/-- C7: NormalizeStickAxis maps raw -32768 and raw -32767 to exactly -1
and raw 32767 to exactly 1; the signed-16-bit path reaches this by
clamping every value below -32767 to -32767 before dividing by 32767;
and the zero-width calibration range of the evdev inline path
normalizes to 0. -/
theorem stickAxis_boundary_values :
    NormalizeStickAxis (-32768) = -1 ∧
    NormalizeStickAxis (-32767) = -1 ∧
    NormalizeStickAxis 32767 = 1 ∧
    (∀ value : Int, value < -32767 → NormalizeStickAxis value = -1) ∧
    (∀ minimum maximum raw : Int, maximum - minimum = 0 →
      evdevStickNormalize minimum maximum raw = 0) := by
  refine ⟨by simp [NormalizeStickAxis], by simp [NormalizeStickAxis],
    by simp [NormalizeStickAxis], ?_, ?_⟩
  · intro value h
    simp only [NormalizeStickAxis, if_pos h]
    norm_num
  · intro minimum maximum raw h
    simp [evdevStickNormalize, h]

/-- Witness for stickAxis_boundary_values at concrete inputs. -/
theorem stickAxis_boundary_values_witness :
    NormalizeStickAxis (-40000) = -1 ∧ evdevStickNormalize 7 7 123 = 0 :=
  ⟨stickAxis_boundary_values.2.2.2.1 (-40000) (by decide),
   stickAxis_boundary_values.2.2.2.2 7 7 123 (by decide)⟩

/-- C6 counterexample: the inline stick normalization of
EvdevManager.OnInput does not clamp; for the calibration range 0..255
the out-of-range raw value 512 normalizes to 769/255, strictly greater
than 1, so not every normalization in the program clamps to the
documented output range on out-of-spec input. -/
theorem normalization_clamp_counterexample :
    evdevStickNormalize 0 255 512 = 769 / 255 ∧ (1 : ℚ) < 769 / 255 := by
  constructor
  · norm_num [evdevStickNormalize]
  · norm_num

/-- C6 as amended: all normalization functions are pure rational
functions; NormalizeThumbstick and NormalizeTrigger clamp into the
documented range for every input, NormalizeStickAxis and
NormalizeTriggerAxis stay in range for every representable int16 input,
and the inline evdev calibration normalizations stay in range exactly
for raw values inside the calibration range, with no clamp outside
it. -/
theorem normalizers_stay_in_range :
    (∀ value dead_zone : Int,
      -1 ≤ NormalizeThumbstick value dead_zone ∧
        NormalizeThumbstick value dead_zone ≤ 1) ∧
    (∀ value threshold : Int,
      0 ≤ NormalizeTrigger value threshold ∧
        NormalizeTrigger value threshold ≤ 1) ∧
    (∀ value : Int, value ≤ 32767 →
      -1 ≤ NormalizeStickAxis value ∧ NormalizeStickAxis value ≤ 1) ∧
    (∀ value : Int, value ≤ 32767 →
      0 ≤ NormalizeTriggerAxis value ∧ NormalizeTriggerAxis value ≤ 1) ∧
    (∀ minimum maximum raw : Int, minimum ≤ raw → raw ≤ maximum →
      -1 ≤ evdevStickNormalize minimum maximum raw ∧
        evdevStickNormalize minimum maximum raw ≤ 1) ∧
    (∀ minimum maximum raw : Int, minimum ≤ raw → raw ≤ maximum →
      0 ≤ evdevTriggerNormalize minimum maximum raw ∧
        evdevTriggerNormalize minimum maximum raw ≤ 1) := by
  refine ⟨?_, ?_, ?_, ?_, ?_, ?_⟩
  · intro value dead_zone
    simp only [NormalizeThumbstick]
    split_ifs with h h2
    · norm_num
    · exact ⟨le_min (le_max_right _ _) (by norm_num), min_le_right _ _⟩
    · exact ⟨le_min (le_max_right _ _) (by norm_num), min_le_right _ _⟩
  · intro value threshold
    simp only [NormalizeTrigger]
    split_ifs with h
    · norm_num
    · constructor
      · exact le_min (le_max_right _ _) (by norm_num)
      · exact min_le_right _ _
  · intro value hv
    simp only [NormalizeStickAxis]
    split_ifs with h
    · norm_num
    · have h1 : (-32767 : ℚ) ≤ (value : ℚ) := by exact_mod_cast Int.not_lt.mp h
      have h2 : ((value : ℚ)) ≤ 32767 := by exact_mod_cast hv
      constructor
      · rw [le_div_iff (by norm_num : (0:ℚ) < 32767)]; linarith
      · rw [div_le_one (by norm_num : (0:ℚ) < 32767)]; linarith
  · intro value hv
    simp only [NormalizeTriggerAxis]
    split_ifs with h
    · norm_num
    · have h1 : (0 : ℚ) ≤ (value : ℚ) := by exact_mod_cast Int.not_lt.mp h
      have h2 : ((value : ℚ)) ≤ 32767 := by exact_mod_cast hv
      constructor
      · exact div_nonneg h1 (by norm_num)
      · rw [div_le_one (by norm_num : (0:ℚ) < 32767)]; linarith
  · intro minimum maximum raw hlo hhi
    simp only [evdevStickNormalize]
    split_ifs with h
    · have hr0 : (0:ℚ) ≤ ((maximum - minimum : Int) : ℚ) := by
        exact_mod_cast Int.sub_nonneg.mpr (hlo.trans hhi)
      have hr : (0:ℚ) < ((maximum - minimum : Int) : ℚ) :=
        lt_of_le_of_ne hr0 (Ne.symm h)
      have hd0 : (0:ℚ) ≤ ((raw - minimum : Int) : ℚ) := by
        exact_mod_cast Int.sub_nonneg.mpr hlo
      have hdr : ((raw - minimum : Int) : ℚ) ≤ ((maximum - minimum : Int) : ℚ) := by
        exact_mod_cast Int.sub_le_sub_right hhi minimum
      constructor
      · have h2 : (0:ℚ) ≤
            2 * ((raw - minimum : Int) : ℚ) / ((maximum - minimum : Int) : ℚ) :=
          div_nonneg (by linarith) hr.le
        linarith
      · have h3 : ((raw - minimum : Int) : ℚ) / ((maximum - minimum : Int) : ℚ) ≤ 1 :=
          (div_le_one hr).mpr hdr
        rw [mul_div_assoc]
        linarith
    · norm_num
  · intro minimum maximum raw hlo hhi
    simp only [evdevTriggerNormalize]
    split_ifs with h
    · have hr0 : (0:ℚ) ≤ ((maximum - minimum : Int) : ℚ) := by
        exact_mod_cast Int.sub_nonneg.mpr (hlo.trans hhi)
      have hr : (0:ℚ) < ((maximum - minimum : Int) : ℚ) :=
        lt_of_le_of_ne hr0 (Ne.symm h)
      have hd0 : (0:ℚ) ≤ ((raw - minimum : Int) : ℚ) := by
        exact_mod_cast Int.sub_nonneg.mpr hlo
      have hdr : ((raw - minimum : Int) : ℚ) ≤ ((maximum - minimum : Int) : ℚ) := by
        exact_mod_cast Int.sub_le_sub_right hhi minimum
      exact ⟨div_nonneg hd0 hr.le, (div_le_one hr).mpr hdr⟩
    · norm_num

/-- Witness for normalizers_stay_in_range at concrete inputs. -/
theorem normalizers_stay_in_range_witness :
    (-1 ≤ NormalizeThumbstick 12000 7849 ∧ NormalizeThumbstick 12000 7849 ≤ 1) ∧
    (0 ≤ NormalizeTrigger 200 30 ∧ NormalizeTrigger 200 30 ≤ 1) ∧
    (-1 ≤ NormalizeStickAxis 1234 ∧ NormalizeStickAxis 1234 ≤ 1) ∧
    (0 ≤ NormalizeTriggerAxis 1234 ∧ NormalizeTriggerAxis 1234 ≤ 1) ∧
    (-1 ≤ evdevStickNormalize 0 255 100 ∧ evdevStickNormalize 0 255 100 ≤ 1) ∧
    (0 ≤ evdevTriggerNormalize 0 255 100 ∧ evdevTriggerNormalize 0 255 100 ≤ 1) :=
  ⟨normalizers_stay_in_range.1 12000 7849,
   normalizers_stay_in_range.2.1 200 30,
   normalizers_stay_in_range.2.2.1 1234 (by decide),
   normalizers_stay_in_range.2.2.2.1 1234 (by decide),
   normalizers_stay_in_range.2.2.2.2.1 0 255 100 (by decide) (by decide),
   normalizers_stay_in_range.2.2.2.2.2 0 255 100 (by decide) (by decide)⟩

/-- C9: when the read loop ends with a SYN_DROPPED status, OnInput
drains the whole resync stream to completion while emitting no event at
all during the drain and leaving the device state untouched by the
drained entries; the events produced by the call are exactly those of
the normal streaming portion that preceded the overflow, with no
synthetic catch-up events appended. -/
theorem resync_drain_is_silent (m : EvdevMapping) (ts : Int)
    (st : DeviceState) (pre syncs : List ReadResult)
    (hpre : ∀ r ∈ pre, ∃ e, r = ReadResult.success e)
    (hsync : ∀ r ∈ syncs, r = ReadResult.sync) :
    (onInput m ts st (pre ++ ReadResult.sync :: syncs)).1 =
      (processStream m ts st pre).1 ∧
    (onInput m ts st (pre ++ ReadResult.sync :: syncs)).2.1 =
      (processStream m ts st pre).2.1 ∧
    (onInput m ts st (pre ++ ReadResult.sync :: syncs)).2.2 = [] := by
  unfold onInput
  rw [processStream_stops_at_sync m ts pre st syncs hpre]
  simp [drainSyncStream_all_sync syncs hsync]

/-- Witness for resync_drain_is_silent on a concrete overflow stream. -/
theorem resync_drain_is_silent_witness :
    (onInput specEvdevMapping 0
        { id := 1, name := "Pad", vendorId := 0, productId := 0,
          absInfo := fun _ => { minimum := 0, maximum := 255 },
          lastAxis := fun _ => none, lastTrigger := fun _ => none }
        ([ReadResult.success (RawEvent.key 304 1)] ++
          ReadResult.sync :: [ReadResult.sync, ReadResult.sync])).2.2 = [] := by
  refine (resync_drain_is_silent specEvdevMapping 0 _ _ _ ?_ ?_).2.2
  · intro r hr
    simp only [List.mem_singleton] at hr
    exact ⟨RawEvent.key 304 1, hr⟩
  · intro r hr
    fin_cases hr <;> rfl

/-- C10: in every backend the pressed flag of a trigger-derived button
event is a strict threshold on the normalized value: greater than 0.5
in the evdev OnInput path and the SDL HandleAxisEvent path, but greater
than 0 in the XInput ProcessGamepad path, so for normalized values in
the half-open interval from 0 exclusive to 0.5 inclusive the XInput
backend reports pressed while the evdev and SDL backends do not. -/
theorem trigger_pressed_thresholds :
    (∀ (m : EvdevMapping) (ts : Int) (st : DeviceState) (code v : Int)
        (g t bi : Int) (p : Bool) (q : ℚ),
      m.isHatAxis code = false → m.isTriggerAxisCode code = true →
      FlEvent.button g t bi p q ∈
        (processRawEvent m ts st (RawEvent.abs code v)).1 →
      p = decide (q > 1/2)) ∧
    (∀ (joystick_id ts axis v : Int) (g : String) (t bi : Int) (p : Bool)
        (q : ℚ),
      IsTriggerAxis axis = true →
      SdlEvent.button g t bi p q ∈ sdlHandleAxisEvent joystick_id ts axis v →
      p = decide (q > 1/2)) ∧
    (∀ (user_index ts buttonIndex : Int) (stateVal : ℚ)
        (raw threshold : Int) (g : String) (t b : Int) (p : Bool) (q : ℚ),
      SdlEvent.button g t b p q ∈
        (xinputTriggerStep user_index ts buttonIndex stateVal
          raw threshold).1 →
      p = decide (q > 0)) ∧
    (∀ q : ℚ, 0 < q → q ≤ 1/2 →
      decide (q > (0:ℚ)) = true ∧ decide (q > (1:ℚ)/2) = false) := by
  refine ⟨?_, ?_, ?_, ?_⟩
  · intro m ts st code v g t bi p q hhat htrig hmem
    simp only [processRawEvent, hhat, htrig, Bool.false_eq_true, if_false,
      if_true] at hmem
    split_ifs at hmem <;>
      simp only [List.mem_singleton, List.not_mem_nil,
        FlEvent.button.injEq] at hmem <;>
      · obtain ⟨_, _, _, hp, hq⟩ := hmem
        subst hp; subst hq; rfl
  · intro joystick_id ts axis v g t bi p q htrig hmem
    simp only [sdlHandleAxisEvent, htrig, if_true] at hmem
    split_ifs at hmem with h1
    · simp at hmem
    · simp only [List.mem_singleton, SdlEvent.button.injEq] at hmem
      obtain ⟨_, _, _, hp, hq⟩ := hmem
      subst hp; subst hq; rfl
  · intro user_index ts buttonIndex stateVal raw threshold g t b p q hmem
    simp only [xinputTriggerStep] at hmem
    split_ifs at hmem with h1
    · simp only [List.mem_singleton, SdlEvent.button.injEq] at hmem
      obtain ⟨_, _, _, hp, hq⟩ := hmem
      subst hp; subst hq; rfl
    · simp at hmem
  · intro q h0 hhalf
    constructor
    · simpa using h0
    · simpa using not_lt.mpr hhalf

/-- Witness for trigger_pressed_thresholds: the concrete normalized
value 0.3 is reported pressed by the XInput threshold and not pressed by
the evdev and SDL threshold. -/
theorem trigger_pressed_thresholds_witness :
    decide ((3:ℚ)/10 > (0:ℚ)) = true ∧
      decide ((3:ℚ)/10 > (1:ℚ)/2) = false :=
  trigger_pressed_thresholds.2.2.2 (3/10) (by norm_num) (by norm_num)

/-- The registry operations never re-attach a callback: running any
hotplug notifications leaves the flag unchanged. -/
lemma runOps_callbackAttached (path : String) (ts : Int)
    (s : ManagerState) (ops : List HotplugOp) :
    (runOps path ts s ops).callbackAttached = s.callbackAttached := by
  induction ops generalizing s with
  | nil => rfl
  | cons op rest ih =>
    rw [runOps, ih]
    cases op with
    | add probe =>
      simp only [applyOp, AddDevice]
      split_ifs
      · rfl
      · cases probe <;> rfl
    | remove =>
      simp only [applyOp, RemoveDevice]
      cases (s.devices.lookup path) <;> rfl

/-- C4: after Stop the registry is empty, ListGamepads returns the empty
snapshot, every queued event has been released, the callback is cleared,
and nothing is ever delivered again: with the callback detached both the
drain timer path and EmitExistingDevices deliver nothing, and subsequent
hotplug activity cannot re-attach the callback. -/
theorem stop_clears_registry_and_silences_callback (s : ManagerState)
    (ts : Int) :
    ListGamepads (Stop s) = [] ∧
    (Stop s).devices = [] ∧
    (Stop s).pending = [] ∧
    (Stop s).callbackAttached = false ∧
    (DrainEventsStep (Stop s)).1 = [] ∧
    EmitExistingDevices (Stop s) ts = [] ∧
    (∀ s' : ManagerState, s'.callbackAttached = false →
      (DrainEventsStep s').1 = [] ∧ EmitExistingDevices s' ts = []) ∧
    (∀ (path : String) (ops : List HotplugOp),
      (runOps path ts (Stop s) ops).callbackAttached = false) := by
  refine ⟨rfl, rfl, rfl, rfl, ?_, ?_, ?_, ?_⟩
  · simp [DrainEventsStep, Stop]
  · simp [EmitExistingDevices, Stop]
  · intro s' h
    constructor
    · rcases eq_or_ne s'.pending [] with hp | hp
      · simp [DrainEventsStep, hp]
      · simp [DrainEventsStep, hp, h]
    · simp [EmitExistingDevices, h]
  · intro path ops
    rw [runOps_callbackAttached]
    rfl

/-- Witness for stop_clears_registry_and_silences_callback at a concrete
state. -/
theorem stop_clears_registry_witness :
    ListGamepads (Stop
      { devices := [("/dev/input/event3",
          { id := 0, name := "Pad", vendorId := 1, productId := 2,
            absInfo := fun _ => { minimum := 0, maximum := 255 },
            lastAxis := fun _ => none, lastTrigger := fun _ => none })],
        nextId := 1,
        pending := [FlEvent.connection 0 0 true "Pad" 1 2],
        callbackAttached := true }) = [] ∧
    (DrainEventsStep (Stop
      { devices := [], nextId := 0, pending := [],
        callbackAttached := true })).1 = [] := by
  constructor
  · exact (stop_clears_registry_and_silences_callback _ 0).1
  · exact (stop_clears_registry_and_silences_callback _ 0).2.2.2.2.1

/-- Appending a fresh entry makes lookup find it. -/
lemma lookup_append_fresh (l : List (String × DeviceState)) (path : String)
    (x : DeviceState) (h : l.lookup path = none) :
    ((l ++ [(path, x)]).lookup path) = some x := by
  induction l with
  | nil => simp [List.lookup]
  | cons p rest ih =>
    obtain ⟨k, v⟩ := p
    rw [List.cons_append]
    by_cases hk : (path == k) = true
    · simp [List.lookup, hk] at h
    · rw [Bool.not_eq_true] at hk
      simp only [List.lookup, hk] at h ⊢
      exact ih h

/-- An entry already found is still found after appending. -/
lemma lookup_append_of_some (l l2 : List (String × DeviceState))
    (path : String) (x : DeviceState) (h : l.lookup path = some x) :
    ((l ++ l2).lookup path) = some x := by
  induction l with
  | nil => simp [List.lookup] at h
  | cons p rest ih =>
    obtain ⟨k, v⟩ := p
    rw [List.cons_append]
    by_cases hk : (path == k) = true
    · simp only [List.lookup, hk] at h ⊢
      exact h
    · rw [Bool.not_eq_true] at hk
      simp only [List.lookup, hk] at h ⊢
      exact ih h

/-- Filtering away a path makes its lookup miss. -/
lemma lookup_filter_self (l : List (String × DeviceState)) (path : String) :
    ((l.filter (fun p => p.1 ≠ path)).lookup path) = none := by
  induction l with
  | nil => rfl
  | cons p rest ih =>
    obtain ⟨k, v⟩ := p
    by_cases hk : k = path
    · subst hk
      simpa [List.filter] using ih
    · have hne : ((k, v).1 ≠ path) := hk
      rw [List.filter_cons_of_pos (by simpa using hne)]
      have : (path == k) = false := by
        simp [beq_iff_eq]
        exact fun h => hk h.symm
      simp only [List.lookup, this]
      exact ih

/-- Filtering away one path leaves lookups of other paths unchanged. -/
lemma lookup_filter_other (l : List (String × DeviceState))
    (path other : String) (h : path ≠ other) :
    ((l.filter (fun p => p.1 ≠ other)).lookup path) = l.lookup path := by
  induction l with
  | nil => rfl
  | cons p rest ih =>
    obtain ⟨k, v⟩ := p
    by_cases hk : k = other
    · subst hk
      have : (path == k) = false := by
        simp [beq_iff_eq]
        exact h
      rw [List.filter_cons_of_neg (by simp)]
      simp only [List.lookup, this]
      exact ih
    · rw [List.filter_cons_of_pos (by simpa using hk)]
      by_cases hpk : (path == k) = true
      · simp only [List.lookup, hpk]
      · rw [Bool.not_eq_true] at hpk
        simp only [List.lookup, hpk]
        exact ih


/-- Connected flags distribute over queue concatenation. -/
lemma connectedFlags_append (l1 l2 : List FlEvent) :
    connectedFlags (l1 ++ l2) = connectedFlags l1 ++ connectedFlags l2 :=
  List.filterMap_append l1 l2 _

/-- The alternating pattern grows by its parity bit. -/
lemma altPattern_succ (k : Nat) :
    altPattern (k + 1) = altPattern k ++ [decide (k % 2 = 0)] := by
  unfold altPattern
  rw [List.range_succ, List.map_append]
  rfl

/-- Invariant run of hotplug notifications for one path: the connection
trace stays the alternating pattern and tracking matches its parity. -/
lemma runOps_alternating (path : String) (ts : Int) (ops : List HotplugOp) :
    ∀ (s : ManagerState) (k : Nat),
      connectedFlags s.pending = altPattern k →
      ((s.devices.lookup path).isSome ↔ k % 2 = 1) →
      ∃ k', connectedFlags (runOps path ts s ops).pending = altPattern k' ∧
        (((runOps path ts s ops).devices.lookup path).isSome ↔ k' % 2 = 1) := by
  induction ops with
  | nil => intro s k h1 h2; exact ⟨k, h1, h2⟩
  | cons op rest ih =>
    intro s k h1 h2
    rw [runOps]
    cases op with
    | add probe =>
      by_cases htracked : (s.devices.lookup path).isSome
      · have : applyOp path ts s (HotplugOp.add probe) = s := by
          simp [applyOp, AddDevice, htracked]
        rw [this]
        exact ih s k h1 h2
      · have hnone : s.devices.lookup path = none :=
          Option.not_isSome_iff_eq_none.mp htracked
        cases probe with
        | none =>
          have : applyOp path ts s (HotplugOp.add none) = s := by
            simp [applyOp, AddDevice, htracked]
          rw [this]
          exact ih s k h1 h2
        | some pr =>
          have hstep : applyOp path ts s (HotplugOp.add (some pr)) =
              { s with
                devices := s.devices ++ [(path,
                  { id := s.nextId, name := pr.name, vendorId := pr.vendorId,
                    productId := pr.productId, absInfo := pr.absInfo,
                    lastAxis := fun _ => none,
                    lastTrigger := fun _ => none })],
                nextId := s.nextId + 1,
                pending := s.pending ++
                  [FlEvent.connection s.nextId ts true pr.name pr.vendorId
                    pr.productId] } := by
            simp [applyOp, AddDevice, htracked]
          rw [hstep]
          have hkeven : k % 2 = 0 := by
            rcases Nat.mod_two_eq_zero_or_one k with h | h
            · exact h
            · exact absurd (h2.mpr h) htracked
          refine ih _ (k + 1) ?_ ?_
          · simp only [connectedFlags_append, h1, altPattern_succ, hkeven]
            rfl
          · constructor
            · intro _
              omega
            · intro _
              rw [lookup_append_fresh _ _ _ hnone]
              rfl
    | remove =>
      cases hlook : s.devices.lookup path with
      | none =>
        have : applyOp path ts s HotplugOp.remove = s := by
          simp [applyOp, RemoveDevice, hlook]
        rw [this]
        exact ih s k h1 h2
      | some info =>
        have hstep : applyOp path ts s HotplugOp.remove =
            { s with
              devices := s.devices.filter (fun p => p.1 ≠ path),
              pending := s.pending ++
                [FlEvent.connection info.id ts false info.name info.vendorId
                  info.productId] } := by
          simp [applyOp, RemoveDevice, hlook]
        rw [hstep]
        have hkodd : k % 2 = 1 := h2.mp (by simp [hlook])
        refine ih _ (k + 1) ?_ ?_
        · simp only [connectedFlags_append, h1, altPattern_succ]
          have : decide (k % 2 = 0) = false := by simp [hkodd]
          rw [this]
          rfl
        · rw [lookup_filter_self]
          simp
          omega

/-- C3: AddDevice is a no-op on an already tracked path and RemoveDevice
is a no-op on an unknown key, and therefore any sequence of add and
remove notifications for one device path from a fresh manager produces a
connection trace that strictly alternates, beginning with connected
true: exactly one connected-true then one connected-false event per
successful add then remove cycle, with the device tracked exactly when
the trace has odd length. -/
theorem hotplug_idempotent_alternating :
    (∀ (s : ManagerState) (ts : Int) (path : String)
        (probe : Option ProbeData),
      (s.devices.lookup path).isSome → AddDevice s ts path probe = s) ∧
    (∀ (s : ManagerState) (ts : Int) (path : String),
      s.devices.lookup path = none → RemoveDevice s ts path = s) ∧
    (∀ (path : String) (ts : Int) (ops : List HotplugOp),
      ∃ k, connectedFlags
          (runOps path ts initialManagerState ops).pending = altPattern k ∧
        (((runOps path ts initialManagerState ops).devices.lookup
            path).isSome ↔ k % 2 = 1)) := by
  refine ⟨?_, ?_, ?_⟩
  · intro s ts path probe h
    simp [AddDevice, h]
  · intro s ts path h
    simp [RemoveDevice, h]
  · intro path ts ops
    exact runOps_alternating path ts ops initialManagerState 0 rfl
      (by simp [initialManagerState])

/-- Witness for hotplug_idempotent_alternating at a concrete state and
script. -/
theorem hotplug_idempotent_alternating_witness :
    (AddDevice
      { devices := [("/dev/input/event5",
          { id := 0, name := "Pad", vendorId := 1, productId := 2,
            absInfo := fun _ => { minimum := 0, maximum := 255 },
            lastAxis := fun _ => none, lastTrigger := fun _ => none })],
        nextId := 1, pending := [], callbackAttached := true } 7
      "/dev/input/event5" none =
      { devices := [("/dev/input/event5",
          { id := 0, name := "Pad", vendorId := 1, productId := 2,
            absInfo := fun _ => { minimum := 0, maximum := 255 },
            lastAxis := fun _ => none, lastTrigger := fun _ => none })],
        nextId := 1, pending := [], callbackAttached := true }) ∧
    (RemoveDevice initialManagerState 7 "/dev/input/event5" =
      initialManagerState) ∧
    (∃ k, connectedFlags
        (runOps "/dev/input/event5" 7 initialManagerState
          [HotplugOp.add (some
            { name := "Pad", vendorId := 1, productId := 2,
              absInfo := fun _ => { minimum := 0, maximum := 255 } }),
           HotplugOp.remove]).pending = altPattern k ∧
      (((runOps "/dev/input/event5" 7 initialManagerState
          [HotplugOp.add (some
            { name := "Pad", vendorId := 1, productId := 2,
              absInfo := fun _ => { minimum := 0, maximum := 255 } }),
           HotplugOp.remove]).devices.lookup
          "/dev/input/event5").isSome ↔ k % 2 = 1)) :=
  ⟨hotplug_idempotent_alternating.1 _ 7 "/dev/input/event5" none
      (by simp [List.lookup]),
   hotplug_idempotent_alternating.2.1 _ 7 "/dev/input/event5" rfl,
   hotplug_idempotent_alternating.2.2 "/dev/input/event5" 7 _⟩

/-- Connect-true ids distribute over queue concatenation. -/
lemma connectTrueIds_append (l1 l2 : List FlEvent) :
    connectTrueIds (l1 ++ l2) = connectTrueIds l1 ++ connectTrueIds l2 :=
  List.filterMap_append l1 l2 _

/-- Any run of hotplug notifications keeps the registry ids below the
counter and the trace of connected-true ids strictly increasing. -/
lemma runScript_ids_increasing (ts : Int)
    (script : List (String × HotplugOp)) :
    ∀ s : ManagerState,
      (∀ d ∈ s.devices, d.2.id < s.nextId) →
      (∀ i ∈ connectTrueIds s.pending, i < s.nextId) →
      List.Chain' (· < ·) (connectTrueIds s.pending) →
      (∀ d ∈ (runScript ts s script).devices,
          d.2.id < (runScript ts s script).nextId) ∧
      (∀ i ∈ connectTrueIds (runScript ts s script).pending,
          i < (runScript ts s script).nextId) ∧
      List.Chain' (· < ·)
        (connectTrueIds (runScript ts s script).pending) := by
  induction script with
  | nil => intro s h1 h2 h3; exact ⟨h1, h2, h3⟩
  | cons step rest ih =>
    intro s h1 h2 h3
    rw [runScript]
    obtain ⟨path, op⟩ := step
    cases op with
    | add probe =>
      by_cases htracked : (s.devices.lookup path).isSome
      · have : applyOp path ts s (HotplugOp.add probe) = s := by
          simp [applyOp, AddDevice, htracked]
        rw [this]; exact ih s h1 h2 h3
      · cases probe with
        | none =>
          have : applyOp path ts s (HotplugOp.add none) = s := by
            simp [applyOp, AddDevice, htracked]
          rw [this]; exact ih s h1 h2 h3
        | some pr =>
          have hstep : applyOp path ts s (HotplugOp.add (some pr)) =
              { s with
                devices := s.devices ++ [(path,
                  { id := s.nextId, name := pr.name, vendorId := pr.vendorId,
                    productId := pr.productId, absInfo := pr.absInfo,
                    lastAxis := fun _ => none,
                    lastTrigger := fun _ => none })],
                nextId := s.nextId + 1,
                pending := s.pending ++
                  [FlEvent.connection s.nextId ts true pr.name pr.vendorId
                    pr.productId] } := by
            simp [applyOp, AddDevice, htracked]
          rw [hstep]
          refine ih _ ?_ ?_ ?_
          · intro d hd
            dsimp only at hd ⊢
            simp only [List.mem_append, List.mem_singleton] at hd
            rcases hd with hd | hd
            · have := h1 d hd; omega
            · subst hd; simp
          · intro i hi
            dsimp only at hi ⊢
            simp only [connectTrueIds_append] at hi
            rcases List.mem_append.mp hi with hi | hi
            · have := h2 i hi; omega
            · simp [connectTrueIds] at hi
              omega
          · simp only [connectTrueIds_append]
            rw [List.chain'_append]
            refine ⟨h3, ?_, ?_⟩
            · simp [connectTrueIds]
            · intro x hx y hy
              simp only [connectTrueIds, List.filterMap_cons,
                List.filterMap_nil] at hy
              have hxmem : x ∈ connectTrueIds s.pending := by
                cases hlast : (connectTrueIds s.pending).getLast? with
                | none => rw [hlast] at hx; simp at hx
                | some a =>
                  rw [hlast] at hx
                  simp at hx
                  subst hx
                  obtain ⟨h0, h1'⟩ := List.mem_getLast?_eq_getLast
                    (show a ∈ (connectTrueIds s.pending).getLast? from by
                      rw [hlast]; rfl)
                  rw [h1']
                  exact List.getLast_mem h0
              have := h2 x hxmem
              simp at hy
              omega
    | remove =>
      cases hlook : s.devices.lookup path with
      | none =>
        have : applyOp path ts s HotplugOp.remove = s := by
          simp [applyOp, RemoveDevice, hlook]
        rw [this]; exact ih s h1 h2 h3
      | some info =>
        have hstep : applyOp path ts s HotplugOp.remove =
            { s with
              devices := s.devices.filter (fun p => p.1 ≠ path),
              pending := s.pending ++
                [FlEvent.connection info.id ts false info.name info.vendorId
                  info.productId] } := by
          simp [applyOp, RemoveDevice, hlook]
        rw [hstep]
        have hids : connectTrueIds
            (s.pending ++ [FlEvent.connection info.id ts false info.name
              info.vendorId info.productId]) = connectTrueIds s.pending := by
          rw [connectTrueIds_append]
          simp [connectTrueIds]
        refine ih _ ?_ ?_ ?_
        · intro d hd
          exact h1 d (List.mem_of_mem_filter hd)
        · intro i hi
          rw [hids] at hi
          exact h2 i hi
        · rw [hids]
          exact h3

/-- A registry entry is never mutated by a hotplug notification: it is
either left exactly as it was or removed whole. -/
lemma applyOp_entry_stable (s : ManagerState) (p2 path : String) (ts : Int)
    (op : HotplugOp) (info : DeviceState)
    (h : s.devices.lookup path = some info) :
    (applyOp p2 ts s op).devices.lookup path = some info ∨
      (applyOp p2 ts s op).devices.lookup path = none := by
  cases op with
  | add probe =>
    by_cases htracked : (s.devices.lookup p2).isSome
    · left
      simp [applyOp, AddDevice, htracked, h]
    · cases probe with
      | none =>
        left
        simp [applyOp, AddDevice, htracked, h]
      | some pr =>
        left
        have hstep : (applyOp p2 ts s (HotplugOp.add (some pr))).devices =
            s.devices ++ [(p2,
              { id := s.nextId, name := pr.name, vendorId := pr.vendorId,
                productId := pr.productId, absInfo := pr.absInfo,
                lastAxis := fun _ => none,
                lastTrigger := fun _ => none })] := by
          simp [applyOp, AddDevice, htracked]
        rw [hstep]
        exact lookup_append_of_some _ _ _ _ h
  | remove =>
    cases hlook : s.devices.lookup p2 with
    | none =>
      left
      simp [applyOp, RemoveDevice, hlook, h]
    | some i2 =>
      have hstep : (applyOp p2 ts s HotplugOp.remove).devices =
          s.devices.filter (fun p => p.1 ≠ p2) := by
        simp [applyOp, RemoveDevice, hlook]
      rw [hstep]
      by_cases hp : path = p2
      · right
        subst hp
        exact lookup_filter_self _ _
      · left
        rw [lookup_filter_other _ _ _ hp]
        exact h

/-- C5 counterexample: the claim fails on the code in two places.  The
evdev backend emits the gamepadId wire slot as an integer FlValue, not a
string, and the XInput backend derives its string id from the controller
slot, so after a disconnect the very same id is emitted again for the
next controller in that slot: the run connect, disconnect, connect on
slot 0 reuses "win_0" after the removal. -/
theorem gamepadId_claim_counterexample :
    (((evdevConnectionEventValue 0 0 true "Pad" 0 0).listGet 1).map
      FlValue.isString) = some false ∧
    xinputConnectionRun 0 0 false [true, false, true] =
      [SdlEvent.connection "win_0" 0 true "Xbox Controller" 0x045E 0x02E0,
       SdlEvent.connection "win_0" 0 false "Xbox Controller" 0x045E 0x02E0,
       SdlEvent.connection "win_0" 0 true "Xbox Controller" 0x045E 0x02E0] :=
  ⟨rfl, rfl⟩

/-- C5 as amended: in the evdev backend the gamepadId carried by every
emitted event and every ListGamepads entry is an integer, not a string;
it is stable for the device's connected lifetime because registry
entries are only ever inserted and erased whole, and it is drawn from a
strictly increasing per-session counter, so within a session ids are
unique and an id is never emitted for a new connection after its device
was removed.  The stability and uniqueness guarantees hold as stated
for the counter-based backends; the XInput backend keys its string ids
to the controller slot, where an id can recur after removal. -/
theorem gamepadId_integer_stable_never_reused :
    (∀ (id ts : Int) (c : Bool) (name : String) (v p : Int),
      (evdevConnectionEventValue id ts c name v p).listGet 1 =
        some (FlValue.intV id)) ∧
    (∀ id : Int, evdevListGamepadsIdField id = FlValue.intV id) ∧
    (∀ (ts : Int) (script : List (String × HotplugOp)),
      List.Chain' (· < ·)
        (connectTrueIds (runScript ts initialManagerState script).pending)) ∧
    (∀ (s : ManagerState) (p2 path : String) (ts : Int) (op : HotplugOp)
        (info : DeviceState), s.devices.lookup path = some info →
      (applyOp p2 ts s op).devices.lookup path = some info ∨
        (applyOp p2 ts s op).devices.lookup path = none) := by
  refine ⟨?_, ?_, ?_, applyOp_entry_stable⟩
  · intro id ts c name v p
    rfl
  · intro id
    rfl
  · intro ts script
    exact (runScript_ids_increasing ts script initialManagerState
      (by intro d hd; simp [initialManagerState] at hd)
      (by intro i hi; simp [initialManagerState, connectTrueIds] at hi)
      (by simp [initialManagerState, connectTrueIds])).2.2

/-- Witness for gamepadId_integer_stable_never_reused at a concrete
script of two connects on different paths. -/
theorem gamepadId_integer_stable_witness :
    List.Chain' (· < ·)
      (connectTrueIds ((runScript 3 initialManagerState
        [("/dev/input/event1", HotplugOp.add (some
            { name := "A", vendorId := 1, productId := 1,
              absInfo := fun _ => { minimum := 0, maximum := 255 } })),
         ("/dev/input/event2", HotplugOp.add (some
            { name := "B", vendorId := 2, productId := 2,
              absInfo := fun _ => { minimum := 0, maximum := 255 } }))]).pending)) ∧
    ((applyOp "/dev/input/event2" 3
        { devices := [("/dev/input/event1",
            { id := 0, name := "A", vendorId := 1, productId := 1,
              absInfo := fun _ => { minimum := 0, maximum := 255 },
              lastAxis := fun _ => none, lastTrigger := fun _ => none })],
          nextId := 1, pending := [], callbackAttached := true }
        HotplugOp.remove).devices.lookup "/dev/input/event1" =
      some { id := 0, name := "A", vendorId := 1, productId := 1,
              absInfo := fun _ => { minimum := 0, maximum := 255 },
              lastAxis := fun _ => none, lastTrigger := fun _ => none } ∨
     (applyOp "/dev/input/event2" 3
        { devices := [("/dev/input/event1",
            { id := 0, name := "A", vendorId := 1, productId := 1,
              absInfo := fun _ => { minimum := 0, maximum := 255 },
              lastAxis := fun _ => none, lastTrigger := fun _ => none })],
          nextId := 1, pending := [], callbackAttached := true }
        HotplugOp.remove).devices.lookup "/dev/input/event1" = none) :=
  ⟨gamepadId_integer_stable_never_reused.2.2.1 3 _,
   gamepadId_integer_stable_never_reused.2.2.2 _ "/dev/input/event2"
     "/dev/input/event1" 3 HotplugOp.remove _ (by simp [List.lookup])⟩

/-- C1: the OnInput throttle applies only to analog stick and trigger
channels.  When the per-channel cache holds a value (the sentinel is
cleared) and the newly normalized value differs from it by less than
kAxisEpsilon, the sample is dropped and the state is untouched; a fresh
channel whose cache still holds the unset sentinel never suppresses; on
every emission the cache is updated to the new value.  Digital EV_KEY
and hat-derived button events and the connection events of AddDevice and
RemoveDevice are emitted with no throttle test at all. -/
theorem evdev_throttle_discipline :
    (∀ (m : EvdevMapping) (ts : Int) (st : DeviceState) (code v : Int),
      ¬ m.buttonToW3C code < 0 →
      processRawEvent m ts st (RawEvent.key code v) =
        ([FlEvent.button st.id ts (m.buttonToW3C code) (decide (v ≠ 0))
          (if v ≠ 0 then 1 else 0)], st)) ∧
    (∀ v : ℚ, throttleSuppress none v = false) ∧
    (∀ (m : EvdevMapping) (ts : Int) (st : DeviceState) (code v : Int)
        (l : ℚ),
      m.isHatAxis code = false → m.isTriggerAxisCode code = false →
      ¬ m.axisToW3C code < 0 → m.axisToW3C code < 4 →
      st.lastAxis (m.axisToW3C code) = some l →
      |evdevStickNormalize (st.absInfo code).minimum
        (st.absInfo code).maximum v - l| < kAxisEpsilon →
      processRawEvent m ts st (RawEvent.abs code v) = ([], st)) ∧
    (∀ (m : EvdevMapping) (ts : Int) (st : DeviceState) (code v : Int),
      m.isHatAxis code = false → m.isTriggerAxisCode code = false →
      ¬ m.axisToW3C code < 0 → m.axisToW3C code < 4 →
      throttleSuppress (st.lastAxis (m.axisToW3C code))
        (evdevStickNormalize (st.absInfo code).minimum
          (st.absInfo code).maximum v) = false →
      processRawEvent m ts st (RawEvent.abs code v) =
        ([FlEvent.axis st.id ts (m.axisToW3C code)
            (evdevStickNormalize (st.absInfo code).minimum
              (st.absInfo code).maximum v)],
          { st with lastAxis := (Function.update st.lastAxis
              (m.axisToW3C code)
              (some (evdevStickNormalize (st.absInfo code).minimum
                (st.absInfo code).maximum v))) })) ∧
    (∀ (m : EvdevMapping) (ts : Int) (st : DeviceState) (code v : Int)
        (l : ℚ),
      m.isHatAxis code = false → m.isTriggerAxisCode code = true →
      ¬ m.triggerAxisToButtonIndex code < 0 →
      st.lastTrigger (if code = ABS_Z then 0 else 1) = some l →
      |evdevTriggerNormalize (st.absInfo code).minimum
        (st.absInfo code).maximum v - l| < kAxisEpsilon →
      processRawEvent m ts st (RawEvent.abs code v) = ([], st)) ∧
    (∀ (m : EvdevMapping) (ts : Int) (st : DeviceState) (code v : Int),
      m.isHatAxis code = false → m.isTriggerAxisCode code = true →
      ¬ m.triggerAxisToButtonIndex code < 0 →
      throttleSuppress (st.lastTrigger (if code = ABS_Z then 0 else 1))
        (evdevTriggerNormalize (st.absInfo code).minimum
          (st.absInfo code).maximum v) = false →
      processRawEvent m ts st (RawEvent.abs code v) =
        ([FlEvent.button st.id ts (m.triggerAxisToButtonIndex code)
            (decide (evdevTriggerNormalize (st.absInfo code).minimum
              (st.absInfo code).maximum v > 1/2))
            (evdevTriggerNormalize (st.absInfo code).minimum
              (st.absInfo code).maximum v)],
          { st with lastTrigger := (Function.update st.lastTrigger
              (if code = ABS_Z then 0 else 1)
              (some (evdevTriggerNormalize (st.absInfo code).minimum
                (st.absInfo code).maximum v))) })) ∧
    (∀ (m : EvdevMapping) (ts : Int) (st : DeviceState) (v : Int),
      m.isHatAxis ABS_HAT0X = true →
      (processRawEvent m ts st (RawEvent.abs ABS_HAT0X v)).1 =
        [FlEvent.button st.id ts kDpadLeft (decide (v < 0))
          (if v < 0 then 1 else 0),
         FlEvent.button st.id ts kDpadRight (decide (v > 0))
          (if v > 0 then 1 else 0)]) ∧
    (∀ (s : ManagerState) (ts : Int) (path : String) (pr : ProbeData),
      s.devices.lookup path = none →
      (AddDevice s ts path (some pr)).pending = s.pending ++
        [FlEvent.connection s.nextId ts true pr.name pr.vendorId
          pr.productId]) ∧
    (∀ (s : ManagerState) (ts : Int) (path : String) (info : DeviceState),
      s.devices.lookup path = some info →
      (RemoveDevice s ts path).pending = s.pending ++
        [FlEvent.connection info.id ts false info.name info.vendorId
          info.productId]) := by
  refine ⟨?_, fun _ => rfl, ?_, ?_, ?_, ?_, ?_, ?_, ?_⟩
  · intro m ts st code v h
    simp [processRawEvent, h]
  · intro m ts st code v l hhat htrig hmap hlt4 hcache hsmall
    simp only [processRawEvent, hhat, htrig, Bool.false_eq_true, if_false]
    rw [if_neg hmap, if_pos]
    exact ⟨hlt4, by simp [throttleSuppress, hcache, hsmall]⟩
  · intro m ts st code v hhat htrig hmap hlt4 hnosup
    simp only [processRawEvent, hhat, htrig, Bool.false_eq_true, if_false]
    rw [if_neg hmap, if_neg, if_pos hlt4]
    intro hand
    rw [hnosup] at hand
    exact Bool.false_ne_true hand.2
  · intro m ts st code v l hhat htrig hbi hcache hsmall
    simp only [processRawEvent, hhat, htrig, Bool.false_eq_true, if_false,
      if_true]
    rw [if_neg hbi, if_pos]
    simp [throttleSuppress, hcache, hsmall]
  · intro m ts st code v hhat htrig hbi hnosup
    simp only [processRawEvent, hhat, htrig, Bool.false_eq_true, if_false,
      if_true]
    rw [if_neg hbi, if_neg]
    rw [hnosup]
    exact Bool.false_ne_true
  · intro m ts st v hhat
    simp [processRawEvent, hhat]
  · intro s ts path pr h
    simp [AddDevice, h]
  · intro s ts path info h
    simp [RemoveDevice, h]

/-- Witness for evdev_throttle_discipline: a cached stick channel at 0
suppresses the nearby sample 128 of a 0..255 axis, and a mapped EV_KEY
event emits with no throttle test. -/
theorem evdev_throttle_discipline_witness :
    (processRawEvent specEvdevMapping 5
      { id := 9, name := "Pad", vendorId := 1, productId := 2,
        absInfo := fun _ => { minimum := 0, maximum := 255 },
        lastAxis := fun _ => some 0, lastTrigger := fun _ => some 0 }
      (RawEvent.abs 0 128) =
      ([],
        { id := 9, name := "Pad", vendorId := 1, productId := 2,
          absInfo := fun _ => { minimum := 0, maximum := 255 },
          lastAxis := fun _ => some 0, lastTrigger := fun _ => some 0 })) ∧
    (processRawEvent specEvdevMapping 5
      { id := 9, name := "Pad", vendorId := 1, productId := 2,
        absInfo := fun _ => { minimum := 0, maximum := 255 },
        lastAxis := fun _ => some 0, lastTrigger := fun _ => some 0 }
      (RawEvent.key 304 1) =
      ([FlEvent.button 9 5 (specEvdevMapping.buttonToW3C 304)
          (decide ((1:Int) ≠ 0)) (if (1:Int) ≠ 0 then 1 else 0)],
        { id := 9, name := "Pad", vendorId := 1, productId := 2,
          absInfo := fun _ => { minimum := 0, maximum := 255 },
          lastAxis := fun _ => some 0, lastTrigger := fun _ => some 0 })) :=
  ⟨evdev_throttle_discipline.2.2.1 specEvdevMapping 5 _ 0 128 0 (by decide)
      (by decide) (by decide) (by decide) rfl
      (by norm_num [evdevStickNormalize, kAxisEpsilon, abs_lt]),
   evdev_throttle_discipline.1 specEvdevMapping 5 _ 304 1 (by decide)⟩

/-- A property closed under both branches holds of a conditional. -/
lemma prop_of_ite (P : Int → Prop) {c : Prop} [Decidable c] {x y : Int}
    (hx : P x) (hy : P y) : P (if c then x else y) := by
  split_ifs <;> assumption

/-- C8: every raw code whose table lookup is -1 is dropped before any
event is constructed, and every event that is emitted carries a valid
standard index: SdlButtonToW3C only returns -1 or an index in 0..16 and
SdlAxisToW3C only -1 or an index in 0..3, the SDL handlers drop the -1
case, and under the spec contract for the evdev tables every event the
OnInput dispatcher emits satisfies the index invariant. -/
theorem unmapped_codes_never_emit :
    (∀ b : Int, SdlButtonToW3C b = -1 ∨
      (0 ≤ SdlButtonToW3C b ∧ SdlButtonToW3C b ≤ 16)) ∧
    (∀ a : Int, SdlAxisToW3C a = -1 ∨
      (0 ≤ SdlAxisToW3C a ∧ SdlAxisToW3C a ≤ 3)) ∧
    (∀ (joystick_id ts b : Int) (pressed : Bool), SdlButtonToW3C b = -1 →
      sdlHandleButtonEvent joystick_id ts b pressed = []) ∧
    (∀ (m : EvdevMapping) (ts : Int) (st : DeviceState) (code v : Int),
      m.buttonToW3C code = -1 →
      processRawEvent m ts st (RawEvent.key code v) = ([], st)) ∧
    (∀ (joystick_id ts b : Int) (pressed : Bool)
        (e : SdlEvent), e ∈ sdlHandleButtonEvent joystick_id ts b pressed →
      sdlEventIndexOK e) ∧
    (∀ (joystick_id ts a v : Int) (e : SdlEvent),
      e ∈ sdlHandleAxisEvent joystick_id ts a v → sdlEventIndexOK e) ∧
    (∀ (m : EvdevMapping), m.SpecConformant →
      ∀ (ts : Int) (st : DeviceState) (ev : RawEvent) (e : FlEvent),
        e ∈ (processRawEvent m ts st ev).1 → eventIndexOK e) := by
  have hbtn : ∀ b : Int, SdlButtonToW3C b = -1 ∨
      (0 ≤ SdlButtonToW3C b ∧ SdlButtonToW3C b ≤ 16) := by
    intro b
    unfold SdlButtonToW3C
    iterate 15 (refine prop_of_ite (fun z => z = -1 ∨ (0 ≤ z ∧ z ≤ 16)) (by decide) ?_)
    decide
  have haxis : ∀ a : Int, SdlAxisToW3C a = -1 ∨
      (0 ≤ SdlAxisToW3C a ∧ SdlAxisToW3C a ≤ 3) := by
    intro a
    unfold SdlAxisToW3C
    iterate 4 (refine prop_of_ite (fun z => z = -1 ∨ (0 ≤ z ∧ z ≤ 3)) (by decide) ?_)
    decide
  refine ⟨hbtn, haxis, ?_, ?_, ?_, ?_, ?_⟩
  · intro joystick_id ts b pressed h
    simp [sdlHandleButtonEvent, h]
  · intro m ts st code v h
    simp [processRawEvent, h]
  · intro joystick_id ts b pressed e he
    simp only [sdlHandleButtonEvent] at he
    by_cases h : SdlButtonToW3C b < 0
    · rw [if_pos h] at he
      simp at he
    · rw [if_neg h] at he
      simp only [List.mem_singleton] at he
      subst he
      rcases hbtn b with hb | hb
      · exact absurd hb (by omega)
      · exact hb
  · intro joystick_id ts a v e he
    simp only [sdlHandleAxisEvent] at he
    by_cases h1 : IsTriggerAxis a = true
    · rw [if_pos h1] at he
      by_cases h2 : TriggerAxisToButtonIndex a < 0
      · rw [if_pos h2] at he
        simp at he
      · rw [if_neg h2] at he
        simp only [List.mem_singleton] at he
        subst he
        have hT : TriggerAxisToButtonIndex a = kLeftTrigger ∨
            TriggerAxisToButtonIndex a = kRightTrigger := by
          rcases of_decide_eq_true h1 with h | h
          · left; rw [h]; rfl
          · right; rw [h]; rfl
        show 0 ≤ TriggerAxisToButtonIndex a ∧
          TriggerAxisToButtonIndex a ≤ 16
        rcases hT with h | h <;> rw [h] <;> exact ⟨by decide, by decide⟩
    · rw [if_neg h1] at he
      by_cases h3 : SdlAxisToW3C a < 0
      · rw [if_pos h3] at he
        simp at he
      · rw [if_neg h3] at he
        simp only [List.mem_singleton] at he
        subst he
        rcases haxis a with hb | hb
        · exact absurd hb (by omega)
        · exact hb
  · intro m hm ts st ev e he
    obtain ⟨hmb, hma, hmt⟩ := hm
    cases ev with
    | other => simp [processRawEvent] at he
    | key code v =>
      simp only [processRawEvent] at he
      by_cases h : m.buttonToW3C code < 0
      · rw [if_pos h] at he
        simp at he
      · rw [if_neg h] at he
        dsimp only at he
        simp only [List.mem_singleton] at he
        subst he
        rcases hmb code with hb | hb
        · exact absurd hb (by omega)
        · exact hb
    | abs code v =>
      simp only [processRawEvent] at he
      by_cases hhat : m.isHatAxis code = true
      · rw [if_pos hhat] at he
        by_cases hx : code = ABS_HAT0X
        · rw [if_pos hx] at he
          dsimp only at he
          simp only [List.mem_cons, List.mem_singleton,
            List.not_mem_nil, or_false] at he
          rcases he with he | he <;> subst he <;>
            exact (by norm_num [eventIndexOK, kDpadLeft, kDpadRight])
        · rw [if_neg hx] at he
          by_cases hy : code = ABS_HAT0Y
          · rw [if_pos hy] at he
            dsimp only at he
            simp only [List.mem_cons, List.mem_singleton,
              List.not_mem_nil, or_false] at he
            rcases he with he | he <;> subst he <;>
              exact (by norm_num [eventIndexOK, kDpadUp, kDpadDown])
          · rw [if_neg hy] at he
            simp at he
      · rw [if_neg hhat] at he
        by_cases htrig : m.isTriggerAxisCode code = true
        · rw [if_pos htrig] at he
          by_cases hbi : m.triggerAxisToButtonIndex code < 0
          · rw [if_pos hbi] at he
            simp at he
          · rw [if_neg hbi] at he
            split_ifs at he
            all_goals
              first
              | exact absurd he (List.not_mem_nil e)
              | (dsimp only at he
                 simp only [List.mem_singleton] at he
                 subst he
                 show 0 ≤ m.triggerAxisToButtonIndex code ∧
                   m.triggerAxisToButtonIndex code ≤ 16
                 rcases hmt code with hb | hb | hb
                 · exact absurd hb (by omega)
                 · rw [hb]; exact ⟨by decide, by decide⟩
                 · rw [hb]; exact ⟨by decide, by decide⟩)
        · rw [if_neg htrig] at he
          by_cases hw : m.axisToW3C code < 0
          · rw [if_pos hw] at he
            simp at he
          · rw [if_neg hw] at he
            split_ifs at he
            all_goals
              first
              | exact absurd he (List.not_mem_nil e)
              | (dsimp only at he
                 simp only [List.mem_singleton] at he
                 subst he
                 rcases hma code with hb | hb
                 · exact absurd hb (by omega)
                 · exact hb)

/-- The concrete spec-modelled mapping satisfies the section 4.1
contract. -/
lemma specEvdevMapping_conformant : specEvdevMapping.SpecConformant := by
  refine ⟨?_, ?_, ?_⟩
  · intro c
    dsimp only [specEvdevMapping]
    iterate 11 (refine prop_of_ite (fun z => z = -1 ∨ (0 ≤ z ∧ z ≤ 16)) (by decide) ?_)
    decide
  · intro c
    dsimp only [specEvdevMapping]
    iterate 4 (refine prop_of_ite (fun z => z = -1 ∨ (0 ≤ z ∧ z ≤ 3)) (by decide) ?_)
    decide
  · intro c
    dsimp only [specEvdevMapping]
    iterate 2 (refine prop_of_ite (fun z => z = -1 ∨ z = kLeftTrigger ∨ z = kRightTrigger) (by decide) ?_)
    decide

/-- Witness for unmapped_codes_never_emit: the unmapped SDL button code
99 produces nothing, and a mapped EV_KEY event under the spec-modelled
table carries a valid index. -/
theorem unmapped_codes_never_emit_witness :
    sdlHandleButtonEvent 1 0 99 true = [] ∧
    eventIndexOK (FlEvent.button 9 0 0 true 1) :=
  ⟨unmapped_codes_never_emit.2.2.1 1 0 99 true (by decide),
   unmapped_codes_never_emit.2.2.2.2.2.2 specEvdevMapping
     specEvdevMapping_conformant 0
     { id := 9, name := "Pad", vendorId := 1, productId := 2,
       absInfo := fun _ => { minimum := 0, maximum := 255 },
       lastAxis := fun _ => none, lastTrigger := fun _ => none }
     (RawEvent.key 304 1) (FlEvent.button 9 0 0 true 1)
     (by simp [processRawEvent, specEvdevMapping, kButtonA])⟩

/-- Shifted-or splits as an addition when the low part fits below the
shift amount. -/
lemma shiftLeft_lor_small : ∀ (n g a : Nat), a < 2 ^ n →
    ((g <<< n) ||| a) = g * 2 ^ n + a := by
  intro n
  induction n with
  | zero =>
    intro g a ha
    have h0 : a = 0 := by omega
    subst h0
    simp [Nat.shiftLeft_eq]
  | succ n ih =>
    intro g a ha
    have hd : a / 2 < 2 ^ n := by
      have h2 : 2 ^ (n + 1) = 2 * 2 ^ n := by ring
      omega
    have ha2 : Nat.bit a.bodd a.div2 = a := Nat.bit_decomp a
    have hg : g <<< (n + 1) = Nat.bit false (g <<< n) := by
      rw [Nat.shiftLeft_eq, Nat.shiftLeft_eq, Nat.bit_val]
      simp only [Bool.toNat_false, Nat.add_zero, Nat.pow_succ]
      ring
    calc (g <<< (n + 1)) ||| a
        = Nat.bit false (g <<< n) ||| Nat.bit a.bodd a.div2 := by
          rw [hg]
          exact congrArg (fun x => Nat.bit false (g <<< n) ||| x) ha2.symm
      _ = Nat.bit (false || a.bodd) ((g <<< n) ||| a.div2) :=
          Nat.lor_bit _ _ _ _
      _ = Nat.bit a.bodd (g * 2 ^ n + a.div2) := by
          rw [Bool.false_or, ih g a.div2 (by rw [Nat.div2_val]; exact hd)]
      _ = 2 * (g * 2 ^ n + a.div2) + a.bodd.toNat := Nat.bit_val _ _
      _ = g * 2 ^ (n + 1) + a := by
          have hb := Nat.bodd_add_div2 a
          have h2 : g * 2 ^ (n + 1) = 2 * (g * 2 ^ n) := by ring
          omega

/-- On in-range device and axis indices the coalescing key is plain
positional arithmetic. -/
lemma coalesceKey_eq (g a : Int) (hg0 : 0 ≤ g) (hg : g < 2 ^ 56)
    (ha0 : 0 ≤ a) (ha : a < 256) :
    coalesceKey g a = 256 * g.toNat + a.toNat := by
  have h56 : (2:Int) ^ 56 = 72057594037927936 := by norm_num
  have h64 : (2:Int) ^ 64 = 18446744073709551616 := by norm_num
  have hgm : g % (2 ^ 64 : Int) = g := Int.emod_eq_of_lt hg0 (by omega)
  have ham : a % (2 ^ 64 : Int) = a := Int.emod_eq_of_lt ha0 (by omega)
  unfold coalesceKey toUInt64Nat
  rw [hgm, ham]
  have ha8 : a.toNat < 2 ^ 8 := by norm_num; omega
  rw [shiftLeft_lor_small 8 g.toNat a.toNat ha8]
  have hn56 : g.toNat < 72057594037927936 := by omega
  have hn : g.toNat * 2 ^ 8 + a.toNat < 2 ^ 64 := by norm_num; omega
  rw [Nat.mod_eq_of_lt hn]
  norm_num
  omega

/-- The coalescing key is injective on in-range pairs. -/
lemma coalesceKey_inj (g1 a1 g2 a2 : Int)
    (hg10 : 0 ≤ g1) (hg1 : g1 < 2 ^ 56) (ha10 : 0 ≤ a1) (ha1 : a1 < 256)
    (hg20 : 0 ≤ g2) (hg2 : g2 < 2 ^ 56) (ha20 : 0 ≤ a2) (ha2 : a2 < 256)
    (h : coalesceKey g1 a1 = coalesceKey g2 a2) : g1 = g2 ∧ a1 = a2 := by
  rw [coalesceKey_eq g1 a1 hg10 hg1 ha10 ha1,
    coalesceKey_eq g2 a2 hg20 hg2 ha20 ha2] at h
  constructor <;> omega

/-- The reverse scan only drops elements. -/
lemma coalesceRev_sublist (l : List FlEvent) :
    ∀ seen : List Nat, (coalesceRev l seen).Sublist l := by
  induction l with
  | nil => intro seen; simp [coalesceRev]
  | cons e rest ih =>
    intro seen
    cases he : axisKey e with
    | some k =>
      simp only [coalesceRev, he]
      split_ifs with hk
      · exact (ih seen).cons e
      · exact (ih (k :: seen)).cons₂ e
    | none =>
      simp only [coalesceRev, he]
      exact (ih seen).cons₂ e

/-- No event with an already-seen key survives the reverse scan. -/
lemma coalesceRev_countP_seen (l : List FlEvent) (k : Nat) :
    ∀ seen : List Nat, k ∈ seen →
      (coalesceRev l seen).countP (fun e => axisKey e == some k) = 0 := by
  induction l with
  | nil => intro seen _; rfl
  | cons e rest ih =>
    intro seen hk
    cases he : axisKey e with
    | some k2 =>
      simp only [coalesceRev, he]
      split_ifs with hk2
      · exact ih seen hk
      · have hkk : k2 ≠ k := fun h => hk2 (h ▸ hk)
        rw [List.countP_cons]
        have hpe : (axisKey e == some k) = false := by
          rw [he]
          simp only [beq_eq_false_iff_ne, ne_eq, Option.some.injEq]
          exact hkk
        rw [hpe]
        simp only [Bool.false_eq_true, if_false, Nat.add_zero]
        exact ih (k2 :: seen) (List.mem_cons_of_mem _ hk)
    | none =>
      simp only [coalesceRev, he]
      rw [List.countP_cons]
      have hpe : (axisKey e == some k) = false := by rw [he]; rfl
      rw [hpe]
      simp only [Bool.false_eq_true, if_false, Nat.add_zero]
      exact ih seen hk

/-- An unseen key survives the reverse scan exactly once when present at
all. -/
lemma coalesceRev_countP_fresh (l : List FlEvent) (k : Nat) :
    ∀ seen : List Nat, k ∉ seen →
      (coalesceRev l seen).countP (fun e => axisKey e == some k) =
        min 1 (l.countP (fun e => axisKey e == some k)) := by
  induction l with
  | nil => intro seen _; rfl
  | cons e rest ih =>
    intro seen hk
    cases he : axisKey e with
    | some k2 =>
      by_cases hkk : k2 = k
      · subst hkk
        simp only [coalesceRev, he]
        rw [if_neg hk]
        have hpe : (axisKey e == some k2) = true := by
          rw [he]; exact beq_self_eq_true _
        rw [List.countP_cons, List.countP_cons, hpe]
        rw [coalesceRev_countP_seen rest k2 (k2 :: seen)
          (List.mem_cons_self _ _)]
        simp only [if_true]
        omega
      · simp only [coalesceRev, he]
        have hpe : (axisKey e == some k) = false := by
          rw [he]
          simp only [beq_eq_false_iff_ne, ne_eq, Option.some.injEq]
          exact hkk
        split_ifs with hk2
        · rw [ih seen hk, List.countP_cons, hpe]
          simp
        · rw [List.countP_cons, hpe]
          simp only [Bool.false_eq_true, if_false, Nat.add_zero]
          have hfresh : k ∉ k2 :: seen := by
            intro hmem
            rcases List.mem_cons.mp hmem with h | h
            · exact hkk h.symm
            · exact hk h
          rw [ih (k2 :: seen) hfresh, List.countP_cons, hpe]
          simp
    | none =>
      simp only [coalesceRev, he]
      have hpe : (axisKey e == some k) = false := by rw [he]; rfl
      rw [List.countP_cons, List.countP_cons, hpe]
      simp only [Bool.false_eq_true, if_false, Nat.add_zero]
      exact ih seen hk

/-- For an unseen key the reverse scan preserves the first match. -/
lemma coalesceRev_find?_fresh (l : List FlEvent) (k : Nat) :
    ∀ seen : List Nat, k ∉ seen →
      (coalesceRev l seen).find? (fun e => axisKey e == some k) =
        l.find? (fun e => axisKey e == some k) := by
  induction l with
  | nil => intro seen _; rfl
  | cons e rest ih =>
    intro seen hk
    cases he : axisKey e with
    | some k2 =>
      by_cases hkk : k2 = k
      · subst hkk
        have hpe : (axisKey e == some k2) = true := by
          rw [he]; exact beq_self_eq_true _
        simp only [coalesceRev, he]
        rw [if_neg hk]
        simp [List.find?_cons, hpe]
      · have hpe : (axisKey e == some k) = false := by
          rw [he]
          simp only [beq_eq_false_iff_ne, ne_eq, Option.some.injEq]
          exact hkk
        simp only [coalesceRev, he]
        split_ifs with hk2
        · rw [ih seen hk]
          simp [List.find?_cons, hpe]
        · have hfresh : k ∉ k2 :: seen := by
            intro hmem
            rcases List.mem_cons.mp hmem with h | h
            · exact hkk h.symm
            · exact hk h
          simp only [List.find?_cons, hpe]
          exact ih (k2 :: seen) hfresh
    | none =>
      have hpe : (axisKey e == some k) = false := by rw [he]; rfl
      simp only [coalesceRev, he]
      simp only [List.find?_cons, hpe]
      exact ih seen hk

/-- Reversal swaps the first match for the last match of the filter. -/
lemma find?_reverse_getLast?_filter (l : List FlEvent) (p : FlEvent → Bool) :
    l.reverse.find? p = (l.filter p).getLast? := by
  induction l with
  | nil => rfl
  | cons e rest ih =>
    rw [List.reverse_cons, List.find?_append, ih]
    by_cases hp : p e = true
    · rw [List.filter_cons_of_pos hp]
      cases hfl : rest.filter p with
      | nil => simp [List.find?_cons, hp]
      | cons x xs =>
        rw [List.getLast?_cons_cons]
        rw [List.getLast?_eq_getLast_of_ne_nil (l := x :: xs) (by simp)]
        rfl
    · rw [List.filter_cons_of_neg hp]
      have h1 : List.find? p [e] = none := by simp [List.find?_cons, hp]
      rw [h1, Option.or_none]

/-- Counting is stable under reversal. -/
lemma countP_reverse_eq (l : List FlEvent) (p : FlEvent → Bool) :
    l.reverse.countP p = l.countP p := by
  rw [List.countP_eq_length_filter, List.countP_eq_length_filter,
    List.filter_reverse, List.length_reverse]

/-- In a list with exactly one match, the first match is any member that
matches. -/
lemma find?_eq_of_countP_one (l : List FlEvent) (p : FlEvent → Bool)
    (e : FlEvent) (hc : l.countP p = 1) (he : e ∈ l) (hp : p e = true) :
    l.find? p = some e := by
  induction l with
  | nil => simp at he
  | cons x rest ih =>
    rw [List.countP_cons] at hc
    by_cases hx : p x = true
    · rw [List.find?_cons_of_pos rest hx]
      rw [hx] at hc
      simp only [if_true] at hc
      have hr0 : rest.countP p = 0 := by omega
      rcases List.mem_cons.mp he with he | he
      · rw [he]
      · exfalso
        have := List.countP_eq_zero.mp hr0 e he
        rw [hp] at this
        exact this rfl
    · rw [List.find?_cons_of_neg rest hx]
      rcases List.mem_cons.mp he with he | he
      · subst he
        exact absurd hp (by simp [hx])
      · refine ih ?_ he
        rw [Bool.not_eq_true] at hx
        rw [hx] at hc
        simpa using hc

/-- Button and connection events pass the reverse scan untouched. -/
lemma coalesceRev_filter_nonaxis (l : List FlEvent) :
    ∀ seen : List Nat, (coalesceRev l seen).filter (fun e => !e.isAxis) =
      l.filter (fun e => !e.isAxis) := by
  induction l with
  | nil => intro seen; rfl
  | cons e rest ih =>
    intro seen
    cases he : axisKey e with
    | some k =>
      have hax : e.isAxis = true := by
        cases e <;> simp [axisKey, FlEvent.isAxis] at he ⊢
      simp only [coalesceRev, he]
      split_ifs with hk
      · rw [ih seen, List.filter_cons_of_neg (by simp [hax])]
      · rw [List.filter_cons_of_neg (by simp [hax]),
          List.filter_cons_of_neg (by simp [hax]), ih (k :: seen)]
    | none =>
      have hax : e.isAxis = false := by
        cases e <;> simp [axisKey, FlEvent.isAxis] at he ⊢
      simp only [coalesceRev, he]
      rw [List.filter_cons_of_pos (by simp [hax]),
        List.filter_cons_of_pos (by simp [hax]), ih seen]

/-- On events of an in-range batch the device-and-axis predicate agrees
with the key predicate. -/
lemma isAxisOf_eq_keyPred (events : List FlEvent)
    (hb : ∀ g t a v, FlEvent.axis g t a v ∈ events →
      0 ≤ g ∧ g < 2 ^ 56 ∧ 0 ≤ a ∧ a < 256)
    (g a : Int) (hg0 : 0 ≤ g) (hg : g < 2 ^ 56) (ha0 : 0 ≤ a)
    (ha : a < 256) :
    ∀ e ∈ events, isAxisOf g a e =
      (axisKey e == some (coalesceKey g a)) := by
  intro e hme
  cases e with
  | connection g2 t2 c n v p => rfl
  | button g2 t2 b p q => rfl
  | axis g2 t2 a2 v2 =>
    obtain ⟨hg20, hg2, ha20, ha2⟩ := hb g2 t2 a2 v2 hme
    by_cases hga : g2 = g ∧ a2 = a
    · obtain ⟨h1, h2⟩ := hga
      subst h1; subst h2
      simp [isAxisOf, axisKey]
    · have hne : coalesceKey g2 a2 ≠ coalesceKey g a := by
        intro hkeq
        exact hga (coalesceKey_inj g2 a2 g a hg20 hg2 ha20 ha2 hg0 hg ha0
          ha hkeq)
      simp only [isAxisOf, axisKey]
      rw [decide_eq_false hga]
      symm
      simp only [beq_eq_false_iff_ne, ne_eq, Option.some.injEq]
      exact hne

/-- C2: a drained batch is coalesced so that every button and connection
event is delivered in order, while each device-and-axis pair that occurs
among the axis events of the batch is delivered exactly once, namely as
its most recently produced event; in particular the batch of axis
samples 0.1 then 0.5 on axis 0 and 0.2 on axis 1 of device 1 delivers
exactly the 0.5 event for axis 0 and the 0.2 event for axis 1. -/
theorem drain_coalesce_behavior (events : List FlEvent)
    (hb : ∀ g t a v, FlEvent.axis g t a v ∈ events →
      0 ≤ g ∧ g < 2 ^ 56 ∧ 0 ≤ a ∧ a < 256) :
    ((drainCoalesce events).filter (fun e => !e.isAxis) =
      events.filter (fun e => !e.isAxis)) ∧
    (∀ g t a v, FlEvent.axis g t a v ∈ events →
      (drainCoalesce events).countP (isAxisOf g a) = 1 ∧
      ∀ e ∈ drainCoalesce events, isAxisOf g a e = true →
        (events.filter (isAxisOf g a)).getLast? = some e) ∧
    drainCoalesce
      [FlEvent.axis 1 0 0 (1/10), FlEvent.axis 1 1 0 (1/2),
       FlEvent.axis 1 2 1 (1/5)] =
      [FlEvent.axis 1 1 0 (1/2), FlEvent.axis 1 2 1 (1/5)] := by
  refine ⟨?_, ?_, by rfl⟩
  · unfold drainCoalesce
    rw [List.filter_reverse, coalesceRev_filter_nonaxis,
      List.filter_reverse, List.reverse_reverse]
  · intro g t a v hmem
    obtain ⟨hg0, hg, ha0, ha⟩ := hb g t a v hmem
    have hpred := isAxisOf_eq_keyPred events hb g a hg0 hg ha0 ha
    have hsub : ∀ e ∈ drainCoalesce events, e ∈ events := by
      intro e hde
      unfold drainCoalesce at hde
      rw [List.mem_reverse] at hde
      have := (coalesceRev_sublist events.reverse []).subset hde
      rwa [List.mem_reverse] at this
    have hpredd : ∀ e ∈ drainCoalesce events, isAxisOf g a e =
        (axisKey e == some (coalesceKey g a)) := by
      intro e hde
      exact hpred e (hsub e hde)
    have hc1 : (coalesceRev events.reverse []).countP
        (fun e => axisKey e == some (coalesceKey g a)) = 1 := by
      rw [coalesceRev_countP_fresh events.reverse (coalesceKey g a) []
        (by simp)]
      rw [countP_reverse_eq]
      have hpos : 0 < events.countP
          (fun e => axisKey e == some (coalesceKey g a)) := by
        rw [List.countP_pos_iff]
        refine ⟨FlEvent.axis g t a v, hmem, ?_⟩
        simp [axisKey]
      omega
    have hcount : (drainCoalesce events).countP (isAxisOf g a) = 1 := by
      rw [List.countP_congr (fun x hx => by rw [hpredd x hx])]
      unfold drainCoalesce
      rw [countP_reverse_eq]
      exact hc1
    refine ⟨hcount, ?_⟩
    intro e hde hax
    have hpe : (axisKey e == some (coalesceKey g a)) = true := by
      rw [← hpredd e hde]
      exact hax
    have hrev : e ∈ coalesceRev events.reverse [] := by
      unfold drainCoalesce at hde
      rwa [List.mem_reverse] at hde
    have hfind : (coalesceRev events.reverse []).find?
        (fun e => axisKey e == some (coalesceKey g a)) = some e :=
      find?_eq_of_countP_one _ _ e hc1 hrev hpe
    have hfind2 : events.reverse.find?
        (fun e => axisKey e == some (coalesceKey g a)) = some e := by
      rw [← coalesceRev_find?_fresh events.reverse (coalesceKey g a) []
        (by simp)]
      exact hfind
    rw [find?_reverse_getLast?_filter] at hfind2
    rw [List.filter_congr (fun x hx => hpred x hx)]
    exact hfind2

/-- Witness for drain_coalesce_behavior on the concrete batch from the
specification: axis 0 of device 1 is delivered exactly once. -/
theorem drain_coalesce_behavior_witness :
    (drainCoalesce
      [FlEvent.axis 1 0 0 (1/10), FlEvent.axis 1 1 0 (1/2),
       FlEvent.axis 1 2 1 (1/5)]).countP (isAxisOf 1 0) = 1 :=
  ((drain_coalesce_behavior
    [FlEvent.axis 1 0 0 (1/10), FlEvent.axis 1 1 0 (1/2),
     FlEvent.axis 1 2 1 (1/5)]
    (by
      intro g t a v h
      simp only [List.mem_cons, List.not_mem_nil, or_false,
        FlEvent.axis.injEq] at h
      rcases h with ⟨h1, _, h3, _⟩ | ⟨h1, _, h3, _⟩ | ⟨h1, _, h3, _⟩ <;>
        subst h1 <;> subst h3 <;> norm_num)).2.1 1 0 0 (1/10)
    (by simp)).1
